import Mathlib

/-!
# Verification of the AquaFlow watercolor simulation core

Shallow embedding of the simulation engine in `components/FluidCanvas.tsx`:
the grid state (five flat scalar arrays over a fixed 400×300 lattice), the
brush stamping operator (`applyBrush`), the per-tick transport step
(`updateSimulation`) and the compositor (`render`).

Modelling conventions:
* The JS `Float32Array` cells are modelled as exact rationals (`ℚ`); all
  arithmetic of the source is carried out exactly.
* The flat arrays are modelled as total functions `ℕ → ℚ`; only indices
  below `SIM_W * SIM_H` are ever read or written by the operations.
* In-place mutation becomes explicit state passing; the row-major
  double loop of the transport step becomes a left fold over the flat
  indices `0, 1, …, SIM_W*SIM_H − 1` (the same visit order).
* The RGBA bytes written by the compositor are modelled as the exact
  rational values the source computes before the byte store.
-/

set_option maxRecDepth 8000

namespace AquaFlow

/-- Fixed simulation resolution (`SIM_W` in the source). -/
def SIM_W : ℕ := 400

/-- Fixed simulation resolution (`SIM_H` in the source). -/
def SIM_H : ℕ := 300

/-- Number of grid cells. -/
def NCELLS : ℕ := SIM_W * SIM_H

/-- The five flat simulation arrays of the source:
`waterMap`, `wetnessMap`, `pigmentR`, `pigmentG`, `pigmentB`. -/
structure GridState where
  wm : ℕ → ℚ
  wet : ℕ → ℚ
  pr : ℕ → ℚ
  pg : ℕ → ℚ
  pb : ℕ → ℚ

/-- Write one cell of a flat array (`arr[i] = v`). -/
def upd (f : ℕ → ℚ) (i : ℕ) (v : ℚ) : ℕ → ℚ :=
  fun j => if j = i then v else f j

/-- The initial, all-zero grid (fresh `Float32Array`s). -/
def zeroState : GridState :=
  ⟨fun _ => 0, fun _ => 0, fun _ => 0, fun _ => 0, fun _ => 0⟩

/-- The index helper of the source: clamps out-of-range coordinates to the
nearest valid cell, then flattens (`idx`). -/
def idx (x y : ℤ) : ℕ :=
  let x' : ℤ := if x < 0 then 0 else if (SIM_W : ℤ) ≤ x then (SIM_W : ℤ) - 1 else x
  let y' : ℤ := if y < 0 then 0 else if (SIM_H : ℤ) ≤ y then (SIM_H : ℤ) - 1 else y
  (y' * SIM_W + x').toNat

/-- The five tools (`ToolType` in `types.ts`). -/
inductive ToolType where
  | BRUSH
  | WATER
  | DRY
  | ERASER
  | BLOW
deriving DecidableEq

/-- An RGB color, each channel in `[0, 255]` (`RGB` in `types.ts`). -/
structure RGB where
  r : ℚ
  g : ℚ
  b : ℚ

/-- Body of the double loop of `applyBrush`: the effect of one brush stamp on
the single candidate cell `(cell.1, cell.2) = (cx, cy)`.  `simX, simY` is the
stamp center in grid coordinates and `rSq` the squared grid-space radius. -/
def stampCell (tool : ToolType) (c : RGB) (pressure waterLoad pigmentLoad : ℚ)
    (simX simY : ℤ) (rSq : ℚ) (s : GridState) (cell : ℕ × ℕ) : GridState :=
  let cx := cell.1
  let cy := cell.2
  let distSq : ℚ := ((cx : ℚ) - (simX : ℚ)) ^ 2 + ((cy : ℚ) - (simY : ℚ)) ^ 2
  if distSq ≤ rSq then
    let i := cy * SIM_W + cx
    let falloff := 1 - distSq / rSq
    let amount := falloff * pressure
    match tool with
    | ToolType.BRUSH =>
        let s1 : GridState :=
          { s with wm := upd s.wm i (min 10 (s.wm i + amount * (waterLoad / 20)))
                   wet := upd s.wet i 1 }
        let pLoad := pigmentLoad / 100
        let alpha := amount * pLoad * (1 / 2)
        { s1 with pr := upd s1.pr i (s1.pr i * (1 - alpha) + c.r * alpha)
                  pg := upd s1.pg i (s1.pg i * (1 - alpha) + c.g * alpha)
                  pb := upd s1.pb i (s1.pb i * (1 - alpha) + c.b * alpha) }
    | ToolType.WATER =>
        { s with wm := upd s.wm i (min 10 (s.wm i + amount * (waterLoad / 10)))
                 wet := upd s.wet i 1 }
    | ToolType.DRY =>
        { s with wm := upd s.wm i (max 0 (s.wm i - amount * 2))
                 wet := upd s.wet i (max 0 (s.wet i - amount * 2)) }
    | ToolType.ERASER =>
        let eraseStr := amount * (1 / 2)
        { s with pr := upd s.pr i (s.pr i * (1 - eraseStr))
                 pg := upd s.pg i (s.pg i * (1 - eraseStr))
                 pb := upd s.pb i (s.pb i * (1 - eraseStr))
                 wm := upd s.wm i (s.wm i * (1 - eraseStr)) }
    | ToolType.BLOW => s
  else s

/-- The candidate cells visited by the double loop of `applyBrush`, in loop
order (`cy` outer from `startY` to `endY`, `cx` inner from `startX` to
`endX`, both half-open), for a stamp centered at `(simX, simY)` with
grid-space radius `radius`. -/
def stampCells (simX simY : ℤ) (radius : ℚ) : List (ℕ × ℕ) :=
  let startX := (max 0 ⌊(simX : ℚ) - radius⌋).toNat
  let endX := (min (SIM_W : ℤ) ⌈(simX : ℚ) + radius⌉).toNat
  let startY := (max 0 ⌊(simY : ℚ) - radius⌋).toNat
  let endY := (min (SIM_H : ℤ) ⌈(simY : ℚ) + radius⌉).toNat
  (List.range' startY (endY - startY)).flatMap
    (fun cy => (List.range' startX (endX - startX)).map (fun cx => (cx, cy)))

/-- One brush stamp (`applyBrush`) in grid space: visit every candidate cell
of the clipped bounding box in loop order and apply `stampCell`. -/
def stamp (tool : ToolType) (c : RGB) (pressure waterLoad pigmentLoad : ℚ)
    (simX simY : ℤ) (radius : ℚ) (s : GridState) : GridState :=
  (stampCells simX simY radius).foldl
    (stampCell tool c pressure waterLoad pigmentLoad simX simY (radius * radius)) s

/-- The externally owned simulation parameters read by the physics loop. -/
structure SimParams where
  diffusionSpeed : ℚ
  evaporationRate : ℚ
  gravityX : ℚ
  gravityY : ℚ
  paused : Bool
  showWetness : Bool

/-- One iteration of the `neighbors.forEach` body of `updateSimulation`:
attempt to push flow from cell `i` to neighbor `n.1` with gravity bias
`n.2`.  The accumulator carries the grid plus the two local trackers
`amountToFlow` and `totalWater`. -/
def neighborFlow (i : ℕ) (acc : GridState × ℚ × ℚ) (n : ℕ × ℚ) :
    GridState × ℚ × ℚ :=
  let s := acc.1
  let amountToFlow := acc.2.1
  let totalWater := acc.2.2
  if amountToFlow ≤ 0 then acc
  else
    let j := n.1
    let neighborWater := s.wm j
    let gradient := (totalWater - neighborWater) + n.2 * 5
    if 0 < gradient then
      let flow := min amountToFlow (gradient * (1 / 10))
      if 1 / 1000 < flow then
        let s1 : GridState := { s with wm := upd s.wm i (s.wm i - flow) }
        let s2 : GridState := { s1 with wm := upd s1.wm j (s1.wm j + flow) }
        let ratio := flow / totalWater
        let pFlowR := s2.pr i * ratio
        let pFlowG := s2.pg i * ratio
        let pFlowB := s2.pb i * ratio
        let prA := upd s2.pr i (s2.pr i - pFlowR)
        let pgA := upd s2.pg i (s2.pg i - pFlowG)
        let pbA := upd s2.pb i (s2.pb i - pFlowB)
        let s3 : GridState :=
          { s2 with pr := upd prA j (prA j + pFlowR)
                    pg := upd pgA j (pgA j + pFlowG)
                    pb := upd pbA j (pbA j + pFlowB) }
        let s4 : GridState := { s3 with wet := upd s3.wet j 1 }
        (s4, amountToFlow - flow, totalWater - flow)
      else acc
    else acc

/-- The per-cell body of the transport sweep of `updateSimulation`: skip dry
cells, evaporate, then push water (and proportional pigment) to the four
neighbors in the fixed order right, left, down, up. -/
def updateCell (p : SimParams) (x y : ℕ) (s : GridState) : GridState :=
  let i := y * SIM_W + x
  if s.wm i ≤ 1 / 100 then s
  else
    let w1 := max 0 (s.wm i - p.evaporationRate)
    let s1 : GridState := { s with wm := upd s.wm i w1 }
    if w1 ≤ 0 then { s1 with wet := upd s1.wet i 0 }
    else
      let neighbors : List (ℕ × ℚ) :=
        [(idx ((x : ℤ) + 1) (y : ℤ), -p.gravityX),
         (idx ((x : ℤ) - 1) (y : ℤ), p.gravityX),
         (idx (x : ℤ) ((y : ℤ) + 1), p.gravityY),
         (idx (x : ℤ) ((y : ℤ) - 1), -p.gravityY)]
      let totalWater := w1
      let amountToFlow := totalWater * p.diffusionSpeed
      (neighbors.foldl (neighborFlow i) (s1, amountToFlow, totalWater)).1

/-- One full transport sweep of `updateSimulation`: visit all cells in
row-major order (`y` outer, `x` inner), i.e. flat indices in increasing
order, applying `updateCell` in place. -/
def transportStep (p : SimParams) (s : GridState) : GridState :=
  (List.range NCELLS).foldl (fun s i => updateCell p (i % SIM_W) (i / SIM_W) s) s

/-- The physics loop entry (`updateSimulation`): a no-op when paused. -/
def updateSimulation (p : SimParams) (s : GridState) : GridState :=
  if p.paused then s else transportStep p s

/-- Water lost to evaporation by the visit of one cell: the sweep touches the
cell only if its water exceeds `0.01` at visit time, and then removes
`evaporationRate`, floored at zero. -/
def cellLoss (p : SimParams) (x y : ℕ) (s : GridState) : ℚ :=
  let i := y * SIM_W + x
  if s.wm i ≤ 1 / 100 then 0 else s.wm i - max 0 (s.wm i - p.evaporationRate)

/-- Total evaporation loss of one transport sweep, accumulated alongside the
evolving state in sweep order. -/
def sweepLoss (p : SimParams) (s : GridState) : ℚ :=
  ((List.range NCELLS).foldl
    (fun acc i =>
      (updateCell p (i % SIM_W) (i / SIM_W) acc.1,
       acc.2 + cellLoss p (i % SIM_W) (i / SIM_W) acc.1))
    (s, 0)).2

/-- One RGBA pixel, as the exact values computed by `render` before the
byte store into the image buffer. -/
structure Pixel where
  r : ℚ
  g : ℚ
  b : ℚ
  a : ℚ
deriving DecidableEq

/-- The compositor (`render`) at one cell: the wetness-debug branch when
`showWetness` is set and the cell holds more than `0.1` water, otherwise the
paint-view blend of clamped pigment over the paper color `(250, 246, 235)`. -/
def renderCell (showWetness : Bool) (s : GridState) (i : ℕ) : Pixel :=
  let r := s.pr i
  let g := s.pg i
  let b := s.pb i
  let w := s.wm i
  let finalR := min 255 r
  let finalG := min 255 g
  let finalB := min 255 b
  if showWetness ∧ 1 / 10 < w then
    ⟨0, 0, 255, min 255 (w * 50)⟩
  else
    let totalMass := (r + g + b) / 3
    let alpha := min 1 (totalMass / 100)
    ⟨250 * (1 - alpha) + finalR * alpha,
     246 * (1 - alpha) + finalG * alpha,
     235 * (1 - alpha) + finalB * alpha, 255⟩

/-- Sum of a flat array over the whole grid. -/
def sumQ (f : ℕ → ℚ) : ℚ := ∑ k ∈ Finset.range NCELLS, f k

/-- One externally triggered operation on the grid: a brush stamp (pointer
event) or one transport sweep (one unpaused tick). -/
inductive Op where
  | stampOp (tool : ToolType) (c : RGB) (pressure waterLoad pigmentLoad : ℚ)
      (simX simY : ℤ) (radius : ℚ)
  | stepOp (p : SimParams)

/-- Apply one operation. -/
def applyOp (s : GridState) (o : Op) : GridState :=
  match o with
  | Op.stampOp tool c pressure waterLoad pigmentLoad simX simY radius =>
      stamp tool c pressure waterLoad pigmentLoad simX simY radius s
  | Op.stepOp p => transportStep p s

/-- Run a sequence of operations from a starting state. -/
def runOps (l : List Op) (s : GridState) : GridState := l.foldl applyOp s

/-- The documented parameter ranges: `pressure ∈ [0,1]`,
`waterLoad, pigmentLoad ∈ [0,100]`, color channels in `[0,255]`,
`diffusionSpeed ∈ [0,0.5]`, `evaporationRate ∈ [0,0.05]`,
`gravityX, gravityY ∈ [-0.2,0.2]`. -/
def opInRange : Op → Prop
  | Op.stampOp _ c pressure waterLoad pigmentLoad _ _ _ =>
      0 ≤ pressure ∧ pressure ≤ 1 ∧ 0 ≤ waterLoad ∧ waterLoad ≤ 100 ∧
      0 ≤ pigmentLoad ∧ pigmentLoad ≤ 100 ∧
      0 ≤ c.r ∧ c.r ≤ 255 ∧ 0 ≤ c.g ∧ c.g ≤ 255 ∧ 0 ≤ c.b ∧ c.b ≤ 255
  | Op.stepOp p =>
      0 ≤ p.diffusionSpeed ∧ p.diffusionSpeed ≤ 1 / 2 ∧
      0 ≤ p.evaporationRate ∧ p.evaporationRate ≤ 1 / 20 ∧
      -(1 / 5) ≤ p.gravityX ∧ p.gravityX ≤ 1 / 5 ∧
      -(1 / 5) ≤ p.gravityY ∧ p.gravityY ≤ 1 / 5

/-- An operation with no gravity bias (stamps trivially; transport sweeps
with `gravityX = gravityY = 0`). -/
def opZeroGrav : Op → Prop
  | Op.stampOp _ _ _ _ _ _ _ _ => True
  | Op.stepOp p => p.gravityX = 0 ∧ p.gravityY = 0

/-- Flat index of a candidate cell of the stamping loop. -/
def cellIdx (c : ℕ × ℕ) : ℕ := c.2 * SIM_W + c.1

/-- Transcription of the spec's §4.3 step 4 sentence, for the refinement
check of the transport ordering claim: for one neighbor `j` with gravity
bias `bias`, while `availableFlow > 0`, compute
`gradient = (water[i] - water[neighbor]) + bias·5` (where `water[i]` is the
local tracker that step 4 decrements), and if `gradient > 0` and
`flow = min(availableFlow, gradient·0.1) > 0.001`, move `flow` water units
from `i` to `j`, move pigment in proportion `ratio = flow / waterI`, set the
neighbor's wetness to 1, and decrement `availableFlow` and the local
`water[i]` tracker by `flow`. -/
def specFlowStep (i j : ℕ) (bias : ℚ) (acc : GridState × ℚ × ℚ) :
    GridState × ℚ × ℚ :=
  let s := acc.1
  let availableFlow := acc.2.1
  let waterI := acc.2.2
  if availableFlow ≤ 0 then acc
  else
    let gradient := (waterI - s.wm j) + bias * 5
    if 0 < gradient then
      let flow := min availableFlow (gradient * (1 / 10))
      if 1 / 1000 < flow then
        let sW : GridState := { s with wm := upd s.wm i (s.wm i - flow) }
        let sV : GridState := { sW with wm := upd sW.wm j (sW.wm j + flow) }
        let ratio := flow / waterI
        let mvR := sV.pr i * ratio
        let mvG := sV.pg i * ratio
        let mvB := sV.pb i * ratio
        let prI := upd sV.pr i (sV.pr i - mvR)
        let pgI := upd sV.pg i (sV.pg i - mvG)
        let pbI := upd sV.pb i (sV.pb i - mvB)
        let sP : GridState :=
          { sV with pr := upd prI j (prI j + mvR)
                    pg := upd pgI j (pgI j + mvG)
                    pb := upd pbI j (pbI j + mvB) }
        let sWet : GridState := { sP with wet := upd sP.wet j 1 }
        (sWet, availableFlow - flow, waterI - flow)
      else acc
    else acc

/-- Transcription of the spec's §4.3 per-cell transport step: skip dry
cells, evaporate with floor at 0, then process the four neighbor candidates
sequentially in the fixed order right, left, down, up, with gravity biases
`-gravityX, +gravityX, +gravityY, -gravityY` respectively. -/
def transportCellSpec (p : SimParams) (x y : ℕ) (s : GridState) : GridState :=
  let i := y * SIM_W + x
  if s.wm i ≤ 1 / 100 then s
  else
    let w1 := max 0 (s.wm i - p.evaporationRate)
    let sE : GridState := { s with wm := upd s.wm i w1 }
    if w1 ≤ 0 then { sE with wet := upd sE.wet i 0 }
    else
      let availableFlow := w1 * p.diffusionSpeed
      let st1 := specFlowStep i (idx ((x : ℤ) + 1) (y : ℤ)) (-p.gravityX) (sE, availableFlow, w1)
      let st2 := specFlowStep i (idx ((x : ℤ) - 1) (y : ℤ)) p.gravityX st1
      let st3 := specFlowStep i (idx (x : ℤ) ((y : ℤ) + 1)) p.gravityY st2
      let st4 := specFlowStep i (idx (x : ℤ) ((y : ℤ) - 1)) (-p.gravityY) st3
      st4.1

/-! ## Generic helpers -/

@[simp] lemma upd_same (f : ℕ → ℚ) (i : ℕ) (v : ℚ) : upd f i v i = v := by
  simp [upd]

lemma upd_ne (f : ℕ → ℚ) (i : ℕ) (v : ℚ) {j : ℕ} (h : j ≠ i) : upd f i v j = f j := by
  simp [upd, h]

lemma foldl_fix {α β : Type} (g : β → α → β) (s : β) (l : List α)
    (h : ∀ a ∈ l, g s a = s) : l.foldl g s = s := by
  induction l with
  | nil => rfl
  | cons a l ih =>
      have ha : g s a = s := h a (List.mem_cons_self a l)
      rw [List.foldl_cons, ha]
      exact ih (fun b hb => h b (List.mem_cons_of_mem a hb))

lemma sumQ_upd (f : ℕ → ℚ) {i : ℕ} (hi : i < NCELLS) (v : ℚ) :
    sumQ (upd f i v) = sumQ f + v - f i := by
  have hmem : i ∈ Finset.range NCELLS := Finset.mem_range.mpr hi
  have hupd : ∀ k, upd f i v k = Function.update f i v k := by
    intro k
    by_cases hk : k = i
    · subst hk; simp [upd]
    · simp [upd, hk, Function.update, hk]
  have h1 : sumQ (upd f i v) = ∑ k ∈ Finset.range NCELLS, Function.update f i v k := by
    unfold sumQ; exact Finset.sum_congr rfl (fun k _ => hupd k)
  rw [h1, Finset.sum_update_of_mem hmem]
  have h2 : ∑ k ∈ Finset.range NCELLS, f k =
      f i + ∑ k ∈ (Finset.range NCELLS).erase i, f k :=
    (Finset.add_sum_erase _ f hmem).symm
  have h3 : (Finset.range NCELLS) \ {i} = (Finset.range NCELLS).erase i := by
    simp [Finset.erase_eq]
  rw [h3]
  unfold sumQ
  rw [h2]
  ring

/-- The water transfer of one fired neighbor flow (subtract at `i`, add at
`j`) leaves the grid total unchanged, also when `j = i`. -/
lemma sumQ_transfer (f : ℕ → ℚ) {i j : ℕ} (hi : i < NCELLS) (hj : j < NCELLS) (c : ℚ) :
    sumQ (upd (upd f i (f i - c)) j ((upd f i (f i - c)) j + c)) = sumQ f := by
  rw [sumQ_upd _ hj, sumQ_upd _ hi]
  ring

/-! ## Stamping localization lemmas -/

/-- A stamping-loop iteration writes only the flat index of its own cell. -/
lemma stampCell_ne (tool : ToolType) (col : RGB) (pressure wl pl : ℚ)
    (simX simY : ℤ) (rSq : ℚ) (s : GridState) (c : ℕ × ℕ) {k : ℕ}
    (hk : k ≠ cellIdx c) :
    (stampCell tool col pressure wl pl simX simY rSq s c).wm k = s.wm k ∧
    (stampCell tool col pressure wl pl simX simY rSq s c).wet k = s.wet k ∧
    (stampCell tool col pressure wl pl simX simY rSq s c).pr k = s.pr k ∧
    (stampCell tool col pressure wl pl simX simY rSq s c).pg k = s.pg k ∧
    (stampCell tool col pressure wl pl simX simY rSq s c).pb k = s.pb k := by
  unfold stampCell
  rcases c with ⟨cx, cy⟩
  simp only [cellIdx] at hk
  cases tool <;> by_cases hif : (((cx : ℚ) - (simX : ℚ)) ^ 2 + ((cy : ℚ) - (simY : ℚ)) ^ 2 ≤ rSq) <;>
    simp [hif, upd_ne _ _ _ hk]

/-- The writes of a stamping-loop iteration at its own cell depend only on
the five field values of the state at that cell. -/
lemma stampCell_point_congr (tool : ToolType) (col : RGB) (pressure wl pl : ℚ)
    (simX simY : ℤ) (rSq : ℚ) (s s2 : GridState) (c : ℕ × ℕ)
    (hwm : s.wm (cellIdx c) = s2.wm (cellIdx c))
    (hwet : s.wet (cellIdx c) = s2.wet (cellIdx c))
    (hpr : s.pr (cellIdx c) = s2.pr (cellIdx c))
    (hpg : s.pg (cellIdx c) = s2.pg (cellIdx c))
    (hpb : s.pb (cellIdx c) = s2.pb (cellIdx c)) :
    (stampCell tool col pressure wl pl simX simY rSq s c).wm (cellIdx c) =
      (stampCell tool col pressure wl pl simX simY rSq s2 c).wm (cellIdx c) ∧
    (stampCell tool col pressure wl pl simX simY rSq s c).wet (cellIdx c) =
      (stampCell tool col pressure wl pl simX simY rSq s2 c).wet (cellIdx c) ∧
    (stampCell tool col pressure wl pl simX simY rSq s c).pr (cellIdx c) =
      (stampCell tool col pressure wl pl simX simY rSq s2 c).pr (cellIdx c) ∧
    (stampCell tool col pressure wl pl simX simY rSq s c).pg (cellIdx c) =
      (stampCell tool col pressure wl pl simX simY rSq s2 c).pg (cellIdx c) ∧
    (stampCell tool col pressure wl pl simX simY rSq s c).pb (cellIdx c) =
      (stampCell tool col pressure wl pl simX simY rSq s2 c).pb (cellIdx c) := by
  unfold stampCell
  rcases c with ⟨cx, cy⟩
  simp only [cellIdx] at hwm hwet hpr hpg hpb ⊢
  cases tool <;> by_cases hif : (((cx : ℚ) - (simX : ℚ)) ^ 2 + ((cy : ℚ) - (simY : ℚ)) ^ 2 ≤ rSq) <;>
    simp [hif, upd, hwm, hwet, hpr, hpg, hpb]

/-- Folding the stamping loop over cells all of whose flat indices differ
from `k` leaves every field at `k` unchanged. -/
lemma stampFold_ne (tool : ToolType) (col : RGB) (pressure wl pl : ℚ)
    (simX simY : ℤ) (rSq : ℚ) (l : List (ℕ × ℕ)) (s : GridState) {k : ℕ}
    (hk : ∀ c ∈ l, k ≠ cellIdx c) :
    (l.foldl (stampCell tool col pressure wl pl simX simY rSq) s).wm k = s.wm k ∧
    (l.foldl (stampCell tool col pressure wl pl simX simY rSq) s).wet k = s.wet k ∧
    (l.foldl (stampCell tool col pressure wl pl simX simY rSq) s).pr k = s.pr k ∧
    (l.foldl (stampCell tool col pressure wl pl simX simY rSq) s).pg k = s.pg k ∧
    (l.foldl (stampCell tool col pressure wl pl simX simY rSq) s).pb k = s.pb k := by
  induction l generalizing s with
  | nil => exact ⟨rfl, rfl, rfl, rfl, rfl⟩
  | cons a l ih =>
      have ha := stampCell_ne tool col pressure wl pl simX simY rSq s a
        (hk a (List.mem_cons_self a l))
      have ihs := ih (stampCell tool col pressure wl pl simX simY rSq s a)
        (fun c hc => hk c (List.mem_cons_of_mem a hc))
      rw [List.foldl_cons]
      exact ⟨ihs.1.trans ha.1, ihs.2.1.trans ha.2.1, ihs.2.2.1.trans ha.2.2.1,
        ihs.2.2.2.1.trans ha.2.2.2.1, ihs.2.2.2.2.trans ha.2.2.2.2⟩

/-- If the flat indices of the visited cells are pairwise distinct, the final
field values at a visited cell `c` are those written by the single visit of
`c`, computed from the pre-loop state. -/
lemma stampFold_point (tool : ToolType) (col : RGB) (pressure wl pl : ℚ)
    (simX simY : ℤ) (rSq : ℚ) (l : List (ℕ × ℕ)) (s : GridState) (c : ℕ × ℕ)
    (hnd : (l.map cellIdx).Nodup) (hc : c ∈ l) :
    (l.foldl (stampCell tool col pressure wl pl simX simY rSq) s).wm (cellIdx c) =
      (stampCell tool col pressure wl pl simX simY rSq s c).wm (cellIdx c) ∧
    (l.foldl (stampCell tool col pressure wl pl simX simY rSq) s).wet (cellIdx c) =
      (stampCell tool col pressure wl pl simX simY rSq s c).wet (cellIdx c) ∧
    (l.foldl (stampCell tool col pressure wl pl simX simY rSq) s).pr (cellIdx c) =
      (stampCell tool col pressure wl pl simX simY rSq s c).pr (cellIdx c) ∧
    (l.foldl (stampCell tool col pressure wl pl simX simY rSq) s).pg (cellIdx c) =
      (stampCell tool col pressure wl pl simX simY rSq s c).pg (cellIdx c) ∧
    (l.foldl (stampCell tool col pressure wl pl simX simY rSq) s).pb (cellIdx c) =
      (stampCell tool col pressure wl pl simX simY rSq s c).pb (cellIdx c) := by
  induction l generalizing s with
  | nil => cases hc
  | cons a l ih =>
      rw [List.map_cons, List.nodup_cons] at hnd
      rcases List.mem_cons.mp hc with rfl | hmem
      · -- the head is the visit of c; the tail never touches its index
        have htail : ∀ b ∈ l, cellIdx c ≠ cellIdx b := by
          intro b hb hcontra
          exact hnd.1 (hcontra ▸ List.mem_map_of_mem cellIdx hb)
        rw [List.foldl_cons]
        exact stampFold_ne tool col pressure wl pl simX simY rSq l _ htail
      · -- c is visited in the tail; the head write does not touch its index
        have hne : cellIdx c ≠ cellIdx a := by
          intro hcontra
          exact hnd.1 (hcontra ▸ List.mem_map_of_mem cellIdx hmem)
        have hhead := stampCell_ne tool col pressure wl pl simX simY rSq s a hne
        have ihs := ih (stampCell tool col pressure wl pl simX simY rSq s a) hnd.2 hmem
        have hcong := stampCell_point_congr tool col pressure wl pl simX simY rSq
          (stampCell tool col pressure wl pl simX simY rSq s a) s c
          hhead.1 hhead.2.1 hhead.2.2.1 hhead.2.2.2.1 hhead.2.2.2.2
        rw [List.foldl_cons]
        exact ⟨ihs.1.trans hcong.1, ihs.2.1.trans hcong.2.1, ihs.2.2.1.trans hcong.2.2.1,
          ihs.2.2.2.1.trans hcong.2.2.2.1, ihs.2.2.2.2.trans hcong.2.2.2.2⟩

/-- Every candidate cell of the stamping loop lies inside the grid. -/
lemma mem_stampCells_lt {simX simY : ℤ} {r : ℚ} {c : ℕ × ℕ}
    (h : c ∈ stampCells simX simY r) : c.1 < SIM_W ∧ c.2 < SIM_H := by
  unfold stampCells at h
  rcases List.mem_flatMap.mp h with ⟨cy, hcy, hc⟩
  rcases List.mem_map.mp hc with ⟨cx, hcx, rfl⟩
  have hx := List.mem_range'_1.mp hcx
  have hy := List.mem_range'_1.mp hcy
  have hxe : ((min (SIM_W : ℤ) ⌈(simX : ℚ) + r⌉).toNat) ≤ SIM_W :=
    Int.toNat_le.mpr (min_le_left _ _)
  have hye : ((min (SIM_H : ℤ) ⌈(simY : ℚ) + r⌉).toNat) ≤ SIM_H :=
    Int.toNat_le.mpr (min_le_left _ _)
  exact ⟨by omega, by omega⟩

/-- The flat indices of the candidate cells of one stamp are pairwise
distinct: the loop visits each cell at most once. -/
lemma stampCells_keys_nodup (simX simY : ℤ) (r : ℚ) :
    ((stampCells simX simY r).map cellIdx).Nodup := by
  unfold stampCells
  rw [List.map_flatMap]
  rw [List.nodup_flatMap]
  constructor
  · intro cy _
    rw [List.map_map]
    refine List.Nodup.map ?_ (List.nodup_range' _ _)
    intro a b hab
    simpa [cellIdx] using hab
  · have hnd : (List.range' ((max 0 ⌊(simY : ℚ) - r⌋).toNat)
        (((min (SIM_H : ℤ) ⌈(simY : ℚ) + r⌉).toNat) - (max 0 ⌊(simY : ℚ) - r⌋).toNat)).Nodup :=
      List.nodup_range' _ _
    refine List.Pairwise.imp ?_ hnd
    intro cy1 cy2 hne
    intro k hk1 hk2
    simp only [List.map_map] at hk1 hk2
    rcases List.mem_map.mp hk1 with ⟨cx1, hcx1, hk1e⟩
    rcases List.mem_map.mp hk2 with ⟨cx2, hcx2, hk2e⟩
    have hb1 := List.mem_range'_1.mp hcx1
    have hb2 := List.mem_range'_1.mp hcx2
    have hxe : ((min (SIM_W : ℤ) ⌈(simX : ℚ) + r⌉).toNat) ≤ SIM_W :=
      Int.toNat_le.mpr (min_le_left _ _)
    simp only [Function.comp, cellIdx, SIM_W] at hk1e hk2e
    simp only [SIM_W] at hxe hb1 hb2
    apply hne
    omega

/-- For an in-grid center and radius at least 1, the center cell itself is
among the visited candidate cells. -/
lemma center_mem_stampCells {cx0 cy0 : ℕ} (hx : cx0 < SIM_W) (hy : cy0 < SIM_H)
    {r : ℚ} (hr : 1 ≤ r) :
    ((cx0, cy0) : ℕ × ℕ) ∈ stampCells (cx0 : ℤ) (cy0 : ℤ) r := by
  unfold stampCells
  rw [List.mem_flatMap]
  have hxs : cx0 ∈ List.range' ((max 0 ⌊((cx0 : ℤ) : ℚ) - r⌋).toNat)
      (((min (SIM_W : ℤ) ⌈((cx0 : ℤ) : ℚ) + r⌉).toNat) - (max 0 ⌊((cx0 : ℤ) : ℚ) - r⌋).toNat) := by
    have h1 : ⌊((cx0 : ℤ) : ℚ) - r⌋ ≤ (cx0 : ℤ) := by
      calc ⌊((cx0 : ℤ) : ℚ) - r⌋ ≤ ⌊((cx0 : ℤ) : ℚ) - 1⌋ :=
            Int.floor_le_floor (by linarith)
        _ = (cx0 : ℤ) - 1 := by
            rw [show ((cx0 : ℤ) : ℚ) - 1 = (((cx0 : ℤ) - 1 : ℤ) : ℚ) by push_cast; ring]
            exact Int.floor_intCast _
        _ ≤ (cx0 : ℤ) := by omega
    have h2 : (cx0 : ℤ) + 1 ≤ min (SIM_W : ℤ) ⌈((cx0 : ℤ) : ℚ) + r⌉ := by
      refine le_min ?_ ?_
      · have : (cx0 : ℤ) < (SIM_W : ℤ) := by exact_mod_cast hx
        omega
      · calc (cx0 : ℤ) + 1 = ⌈(((cx0 : ℤ) + 1 : ℤ) : ℚ)⌉ := (Int.ceil_intCast _).symm
          _ ≤ ⌈((cx0 : ℤ) : ℚ) + r⌉ := Int.ceil_le_ceil (by push_cast; linarith)
    have hs : (max 0 ⌊((cx0 : ℤ) : ℚ) - r⌋).toNat ≤ cx0 := by
      rw [Int.toNat_le]
      rw [max_le_iff]
      exact ⟨by omega, h1⟩
    have he : cx0 + 1 ≤ (min (SIM_W : ℤ) ⌈((cx0 : ℤ) : ℚ) + r⌉).toNat := by
      rw [Int.le_toNat (by omega)]
      exact_mod_cast h2
    rw [List.mem_range'_1]
    omega
  have hys : cy0 ∈ List.range' ((max 0 ⌊((cy0 : ℤ) : ℚ) - r⌋).toNat)
      (((min (SIM_H : ℤ) ⌈((cy0 : ℤ) : ℚ) + r⌉).toNat) - (max 0 ⌊((cy0 : ℤ) : ℚ) - r⌋).toNat) := by
    have h1 : ⌊((cy0 : ℤ) : ℚ) - r⌋ ≤ (cy0 : ℤ) := by
      calc ⌊((cy0 : ℤ) : ℚ) - r⌋ ≤ ⌊((cy0 : ℤ) : ℚ) - 1⌋ :=
            Int.floor_le_floor (by linarith)
        _ = (cy0 : ℤ) - 1 := by
            rw [show ((cy0 : ℤ) : ℚ) - 1 = (((cy0 : ℤ) - 1 : ℤ) : ℚ) by push_cast; ring]
            exact Int.floor_intCast _
        _ ≤ (cy0 : ℤ) := by omega
    have h2 : (cy0 : ℤ) + 1 ≤ min (SIM_H : ℤ) ⌈((cy0 : ℤ) : ℚ) + r⌉ := by
      refine le_min ?_ ?_
      · have : (cy0 : ℤ) < (SIM_H : ℤ) := by exact_mod_cast hy
        omega
      · calc (cy0 : ℤ) + 1 = ⌈(((cy0 : ℤ) + 1 : ℤ) : ℚ)⌉ := (Int.ceil_intCast _).symm
          _ ≤ ⌈((cy0 : ℤ) : ℚ) + r⌉ := Int.ceil_le_ceil (by push_cast; linarith)
    have hs : (max 0 ⌊((cy0 : ℤ) : ℚ) - r⌋).toNat ≤ cy0 := by
      rw [Int.toNat_le]
      rw [max_le_iff]
      exact ⟨by omega, h1⟩
    have he : cy0 + 1 ≤ (min (SIM_H : ℤ) ⌈((cy0 : ℤ) : ℚ) + r⌉).toNat := by
      rw [Int.le_toNat (by omega)]
      exact_mod_cast h2
    rw [List.mem_range'_1]
    omega
  exact ⟨cy0, hys, List.mem_map.mpr ⟨cx0, hxs, rfl⟩⟩

/-- At the exact center cell the distance is 0, so `falloff = 1` and
`amount = pressure`; the BRUSH writes follow. -/
lemma stampCell_center_BRUSH (col : RGB) (pressure wl pl : ℚ) (cx0 cy0 : ℕ)
    (rSq : ℚ) (hrSq : 0 ≤ rSq) (s : GridState) :
    (stampCell ToolType.BRUSH col pressure wl pl (cx0 : ℤ) (cy0 : ℤ) rSq s
        (cx0, cy0)).wm (cy0 * SIM_W + cx0)
      = min 10 (s.wm (cy0 * SIM_W + cx0) + pressure * (wl / 20)) ∧
    (stampCell ToolType.BRUSH col pressure wl pl (cx0 : ℤ) (cy0 : ℤ) rSq s
        (cx0, cy0)).pr (cy0 * SIM_W + cx0)
      = s.pr (cy0 * SIM_W + cx0) * (1 - pressure * (pl / 100) * (1 / 2))
          + col.r * (pressure * (pl / 100) * (1 / 2)) ∧
    (stampCell ToolType.BRUSH col pressure wl pl (cx0 : ℤ) (cy0 : ℤ) rSq s
        (cx0, cy0)).pg (cy0 * SIM_W + cx0)
      = s.pg (cy0 * SIM_W + cx0) * (1 - pressure * (pl / 100) * (1 / 2))
          + col.g * (pressure * (pl / 100) * (1 / 2)) ∧
    (stampCell ToolType.BRUSH col pressure wl pl (cx0 : ℤ) (cy0 : ℤ) rSq s
        (cx0, cy0)).pb (cy0 * SIM_W + cx0)
      = s.pb (cy0 * SIM_W + cx0) * (1 - pressure * (pl / 100) * (1 / 2))
          + col.b * (pressure * (pl / 100) * (1 / 2)) ∧
    (stampCell ToolType.BRUSH col pressure wl pl (cx0 : ℤ) (cy0 : ℤ) rSq s
        (cx0, cy0)).wet (cy0 * SIM_W + cx0) = 1 := by
  have hd : ((cx0 : ℚ) - ((cx0 : ℤ) : ℚ)) ^ 2 + ((cy0 : ℚ) - ((cy0 : ℤ) : ℚ)) ^ 2 = 0 := by
    push_cast
    ring
  simp only [stampCell]
  rw [hd]
  rw [if_pos hrSq]
  simp only [zero_div, sub_zero, one_mul, upd_same]
  exact ⟨trivial, trivial, trivial, trivial, trivial⟩

/-- **C1** (corrected).  One BRUSH stamp at the exact center `(200,150)` of
the 400×300 grid with pressure 0.5, waterLoad 60, pigmentLoad 80, color
`(40,150,250)` and radius ≥ 1: the center cell's water becomes
`min(10, water + 0.5·(60/20))`, i.e. it increases by `0.5·(60/20) = 1.5`
while below the cap (not by `0.75`), and each pigment channel is lerped
toward the brush color with `alpha = 0.5·0.8·0.5 = 0.2` (not `0.1`). -/
theorem C1_center_brush (s : GridState) (r : ℚ) (hr : 1 ≤ r) :
    (stamp ToolType.BRUSH ⟨40, 150, 250⟩ (1 / 2) 60 80 200 150 r s).wm 60200
        = min 10 (s.wm 60200 + 3 / 2) ∧
    (stamp ToolType.BRUSH ⟨40, 150, 250⟩ (1 / 2) 60 80 200 150 r s).pr 60200
        = s.pr 60200 * (1 - 1 / 5) + 40 * (1 / 5) ∧
    (stamp ToolType.BRUSH ⟨40, 150, 250⟩ (1 / 2) 60 80 200 150 r s).pg 60200
        = s.pg 60200 * (1 - 1 / 5) + 150 * (1 / 5) ∧
    (stamp ToolType.BRUSH ⟨40, 150, 250⟩ (1 / 2) 60 80 200 150 r s).pb 60200
        = s.pb 60200 * (1 - 1 / 5) + 250 * (1 / 5) ∧
    (s.wm 60200 ≤ 17 / 2 →
      (stamp ToolType.BRUSH ⟨40, 150, 250⟩ (1 / 2) 60 80 200 150 r s).wm 60200
        = s.wm 60200 + 3 / 2) := by
  have hx : (200 : ℕ) < SIM_W := by norm_num [SIM_W]
  have hy : (150 : ℕ) < SIM_H := by norm_num [SIM_H]
  have hmem : ((200, 150) : ℕ × ℕ) ∈ stampCells (200 : ℤ) (150 : ℤ) r := by
    have h := center_mem_stampCells hx hy hr
    exact_mod_cast h
  have hnd := stampCells_keys_nodup (200 : ℤ) (150 : ℤ) r
  have hpt := stampFold_point ToolType.BRUSH ⟨40, 150, 250⟩ (1 / 2) 60 80 200 150
    (r * r) (stampCells (200 : ℤ) (150 : ℤ) r) s (200, 150) hnd hmem
  have hcell := stampCell_center_BRUSH ⟨40, 150, 250⟩ (1 / 2) 60 80 200 150
    (r * r) (mul_self_nonneg r) s
  have hidx : cellIdx (200, 150) = 60200 := by norm_num [cellIdx, SIM_W]
  have hidx2 : (150 : ℕ) * SIM_W + 200 = 60200 := by norm_num [SIM_W]
  rw [hidx] at hpt
  rw [hidx2] at hcell
  have hcast : ((200 : ℕ) : ℤ) = (200 : ℤ) ∧ ((150 : ℕ) : ℤ) = (150 : ℤ) := by
    constructor <;> norm_num
  rw [hcast.1, hcast.2] at hcell
  unfold stamp
  refine ⟨?_, ?_, ?_, ?_, ?_⟩
  · rw [hpt.1, hcell.1]; norm_num
  · rw [hpt.2.2.1, hcell.2.1]; norm_num
  · rw [hpt.2.2.2.1, hcell.2.2.1]; norm_num
  · rw [hpt.2.2.2.2, hcell.2.2.2.1]; norm_num
  · intro hcap
    rw [hpt.1, hcell.1]
    have : s.wm 60200 + (1 : ℚ) / 2 * (60 / 20) ≤ 10 := by linarith
    rw [min_eq_right this]
    norm_num

/-- **C1** witness: the amended statement instantiated on the all-zero grid
with radius 1. -/
theorem C1_center_brush_witness :
    (1 : ℚ) ≤ 1 ∧
    ((stamp ToolType.BRUSH ⟨40, 150, 250⟩ (1 / 2) 60 80 200 150 1 zeroState).wm 60200
        = min 10 (zeroState.wm 60200 + 3 / 2) ∧
    (stamp ToolType.BRUSH ⟨40, 150, 250⟩ (1 / 2) 60 80 200 150 1 zeroState).pr 60200
        = zeroState.pr 60200 * (1 - 1 / 5) + 40 * (1 / 5) ∧
    (stamp ToolType.BRUSH ⟨40, 150, 250⟩ (1 / 2) 60 80 200 150 1 zeroState).pg 60200
        = zeroState.pg 60200 * (1 - 1 / 5) + 150 * (1 / 5) ∧
    (stamp ToolType.BRUSH ⟨40, 150, 250⟩ (1 / 2) 60 80 200 150 1 zeroState).pb 60200
        = zeroState.pb 60200 * (1 - 1 / 5) + 250 * (1 / 5) ∧
    (zeroState.wm 60200 ≤ 17 / 2 →
      (stamp ToolType.BRUSH ⟨40, 150, 250⟩ (1 / 2) 60 80 200 150 1 zeroState).wm 60200
        = zeroState.wm 60200 + 3 / 2)) :=
  ⟨le_refl 1, C1_center_brush zeroState 1 (le_refl 1)⟩

/-- **C1** counterexample: at the claim's own concrete scenario (all-zero
grid, radius 1), the code yields center water `1.5` and red channel `8`
(alpha `0.2`), which differ from the claimed `0.75` increase and the red
value `4` that `alpha = 0.1` would give. -/
theorem C1_center_brush_cex :
    (stamp ToolType.BRUSH ⟨40, 150, 250⟩ (1 / 2) 60 80 200 150 1 zeroState).wm 60200
        = 3 / 2 ∧
    (stamp ToolType.BRUSH ⟨40, 150, 250⟩ (1 / 2) 60 80 200 150 1 zeroState).pr 60200
        = 8 ∧
    ((3 : ℚ) / 2 ≠ 0 + 3 / 4) ∧
    ((8 : ℚ) ≠ 0 * (1 - 1 / 10) + 40 * (1 / 10)) := by
  have hc : stampCells 200 150 1 = [(199, 149), (200, 149), (199, 150), (200, 150)] := by
    norm_num [stampCells]
    decide
  refine ⟨?_, ?_, by norm_num, by norm_num⟩ <;>
  · rw [stamp, hc]
    simp only [List.foldl_cons, List.foldl_nil, stampCell]
    norm_num [upd, zeroState, SIM_W, min_def]

/-- At the exact center cell `amount = pressure`, so an ERASER stamp
multiplies water and the three pigment channels by `1 - pressure·0.5`. -/
lemma stampCell_center_ERASER (col : RGB) (pressure wl pl : ℚ) (cx0 cy0 : ℕ)
    (rSq : ℚ) (hrSq : 0 ≤ rSq) (s : GridState) :
    (stampCell ToolType.ERASER col pressure wl pl (cx0 : ℤ) (cy0 : ℤ) rSq s
        (cx0, cy0)).wm (cy0 * SIM_W + cx0)
      = s.wm (cy0 * SIM_W + cx0) * (1 - pressure * (1 / 2)) ∧
    (stampCell ToolType.ERASER col pressure wl pl (cx0 : ℤ) (cy0 : ℤ) rSq s
        (cx0, cy0)).pr (cy0 * SIM_W + cx0)
      = s.pr (cy0 * SIM_W + cx0) * (1 - pressure * (1 / 2)) ∧
    (stampCell ToolType.ERASER col pressure wl pl (cx0 : ℤ) (cy0 : ℤ) rSq s
        (cx0, cy0)).pg (cy0 * SIM_W + cx0)
      = s.pg (cy0 * SIM_W + cx0) * (1 - pressure * (1 / 2)) ∧
    (stampCell ToolType.ERASER col pressure wl pl (cx0 : ℤ) (cy0 : ℤ) rSq s
        (cx0, cy0)).pb (cy0 * SIM_W + cx0)
      = s.pb (cy0 * SIM_W + cx0) * (1 - pressure * (1 / 2)) := by
  have hd : ((cx0 : ℚ) - ((cx0 : ℤ) : ℚ)) ^ 2 + ((cy0 : ℚ) - ((cy0 : ℤ) : ℚ)) ^ 2 = 0 := by
    push_cast
    ring
  simp only [stampCell]
  rw [hd]
  rw [if_pos hrSq]
  simp only [zero_div, sub_zero, one_mul, upd_same]
  exact ⟨trivial, trivial, trivial, trivial⟩

/-- One ERASER stamp at an in-grid center with pressure 1 halves the center
cell's water and pigment channels. -/
lemma stamp_eraser_center (col : RGB) (wl pl : ℚ) {cx0 cy0 : ℕ}
    (hx : cx0 < SIM_W) (hy : cy0 < SIM_H) {r : ℚ} (hr : 1 ≤ r) (s : GridState) :
    (stamp ToolType.ERASER col 1 wl pl (cx0 : ℤ) (cy0 : ℤ) r s).wm (cy0 * SIM_W + cx0)
      = s.wm (cy0 * SIM_W + cx0) * (1 / 2) ∧
    (stamp ToolType.ERASER col 1 wl pl (cx0 : ℤ) (cy0 : ℤ) r s).pr (cy0 * SIM_W + cx0)
      = s.pr (cy0 * SIM_W + cx0) * (1 / 2) ∧
    (stamp ToolType.ERASER col 1 wl pl (cx0 : ℤ) (cy0 : ℤ) r s).pg (cy0 * SIM_W + cx0)
      = s.pg (cy0 * SIM_W + cx0) * (1 / 2) ∧
    (stamp ToolType.ERASER col 1 wl pl (cx0 : ℤ) (cy0 : ℤ) r s).pb (cy0 * SIM_W + cx0)
      = s.pb (cy0 * SIM_W + cx0) * (1 / 2) := by
  have hmem := center_mem_stampCells hx hy hr
  have hnd := stampCells_keys_nodup (cx0 : ℤ) (cy0 : ℤ) r
  have hpt := stampFold_point ToolType.ERASER col 1 wl pl (cx0 : ℤ) (cy0 : ℤ)
    (r * r) (stampCells (cx0 : ℤ) (cy0 : ℤ) r) s (cx0, cy0) hnd hmem
  have hcell := stampCell_center_ERASER col 1 wl pl cx0 cy0 (r * r)
    (mul_self_nonneg r) s
  have hidx : cellIdx (cx0, cy0) = cy0 * SIM_W + cx0 := rfl
  rw [hidx] at hpt
  unfold stamp
  refine ⟨?_, ?_, ?_, ?_⟩
  · rw [hpt.1, hcell.1]; norm_num
  · rw [hpt.2.2.1, hcell.2.1]; norm_num
  · rw [hpt.2.2.2.1, hcell.2.2.1]; norm_num
  · rw [hpt.2.2.2.2, hcell.2.2.2]; norm_num

/-- **C8** (confirmed).  A single ERASER stamp with pressure 1 at an
in-grid center multiplies the center cell's water and each pigment channel
by exactly `1/2` (the `n = 1` case), and `n` iterated stamps multiply them
by exactly `(1/2)^n`, so a value that starts strictly positive is still
strictly positive after any finite number of stamps. -/
theorem C8_eraser_halves (col : RGB) (wl pl : ℚ) (cx0 cy0 : ℕ)
    (hx : cx0 < SIM_W) (hy : cy0 < SIM_H) (r : ℚ) (hr : 1 ≤ r)
    (s : GridState) (n : ℕ) :
    ((fun t => stamp ToolType.ERASER col 1 wl pl (cx0 : ℤ) (cy0 : ℤ) r t)^[n] s).wm
        (cy0 * SIM_W + cx0) = s.wm (cy0 * SIM_W + cx0) * (1 / 2) ^ n ∧
    ((fun t => stamp ToolType.ERASER col 1 wl pl (cx0 : ℤ) (cy0 : ℤ) r t)^[n] s).pr
        (cy0 * SIM_W + cx0) = s.pr (cy0 * SIM_W + cx0) * (1 / 2) ^ n ∧
    ((fun t => stamp ToolType.ERASER col 1 wl pl (cx0 : ℤ) (cy0 : ℤ) r t)^[n] s).pg
        (cy0 * SIM_W + cx0) = s.pg (cy0 * SIM_W + cx0) * (1 / 2) ^ n ∧
    ((fun t => stamp ToolType.ERASER col 1 wl pl (cx0 : ℤ) (cy0 : ℤ) r t)^[n] s).pb
        (cy0 * SIM_W + cx0) = s.pb (cy0 * SIM_W + cx0) * (1 / 2) ^ n ∧
    (0 < s.wm (cy0 * SIM_W + cx0) →
      0 < ((fun t => stamp ToolType.ERASER col 1 wl pl (cx0 : ℤ) (cy0 : ℤ) r t)^[n] s).wm
        (cy0 * SIM_W + cx0)) ∧
    (0 < s.pr (cy0 * SIM_W + cx0) →
      0 < ((fun t => stamp ToolType.ERASER col 1 wl pl (cx0 : ℤ) (cy0 : ℤ) r t)^[n] s).pr
        (cy0 * SIM_W + cx0)) := by
  have hmain : ∀ m : ℕ,
      ((fun t => stamp ToolType.ERASER col 1 wl pl (cx0 : ℤ) (cy0 : ℤ) r t)^[m] s).wm
          (cy0 * SIM_W + cx0) = s.wm (cy0 * SIM_W + cx0) * (1 / 2) ^ m ∧
      ((fun t => stamp ToolType.ERASER col 1 wl pl (cx0 : ℤ) (cy0 : ℤ) r t)^[m] s).pr
          (cy0 * SIM_W + cx0) = s.pr (cy0 * SIM_W + cx0) * (1 / 2) ^ m ∧
      ((fun t => stamp ToolType.ERASER col 1 wl pl (cx0 : ℤ) (cy0 : ℤ) r t)^[m] s).pg
          (cy0 * SIM_W + cx0) = s.pg (cy0 * SIM_W + cx0) * (1 / 2) ^ m ∧
      ((fun t => stamp ToolType.ERASER col 1 wl pl (cx0 : ℤ) (cy0 : ℤ) r t)^[m] s).pb
          (cy0 * SIM_W + cx0) = s.pb (cy0 * SIM_W + cx0) * (1 / 2) ^ m := by
    intro m
    induction m with
    | zero => simp
    | succ m ih =>
        rw [Function.iterate_succ_apply']
        have hstep := stamp_eraser_center col wl pl hx hy hr
          ((fun t => stamp ToolType.ERASER col 1 wl pl (cx0 : ℤ) (cy0 : ℤ) r t)^[m] s)
        refine ⟨?_, ?_, ?_, ?_⟩
        · rw [hstep.1, ih.1]; ring
        · rw [hstep.2.1, ih.2.1]; ring
        · rw [hstep.2.2.1, ih.2.2.1]; ring
        · rw [hstep.2.2.2, ih.2.2.2]; ring
  refine ⟨(hmain n).1, (hmain n).2.1, (hmain n).2.2.1, (hmain n).2.2.2, ?_, ?_⟩
  · intro hpos
    rw [(hmain n).1]
    positivity
  · intro hpos
    rw [(hmain n).2.1]
    positivity

/-- **C8** witness: two iterated pressure-1 ERASER stamps at cell `(5,7)`
with radius 1 quarter the cell's water and red pigment. -/
theorem C8_eraser_halves_witness :
    (5 : ℕ) < SIM_W ∧ (7 : ℕ) < SIM_H ∧ (1 : ℚ) ≤ 1 ∧
    (((fun t => stamp ToolType.ERASER ⟨0, 0, 0⟩ 1 50 50 ((5 : ℕ) : ℤ) ((7 : ℕ) : ℤ) 1 t)^[2]
        zeroState).wm (7 * SIM_W + 5) = zeroState.wm (7 * SIM_W + 5) * (1 / 2) ^ 2 ∧
    ((fun t => stamp ToolType.ERASER ⟨0, 0, 0⟩ 1 50 50 ((5 : ℕ) : ℤ) ((7 : ℕ) : ℤ) 1 t)^[2]
        zeroState).pr (7 * SIM_W + 5) = zeroState.pr (7 * SIM_W + 5) * (1 / 2) ^ 2 ∧
    ((fun t => stamp ToolType.ERASER ⟨0, 0, 0⟩ 1 50 50 ((5 : ℕ) : ℤ) ((7 : ℕ) : ℤ) 1 t)^[2]
        zeroState).pg (7 * SIM_W + 5) = zeroState.pg (7 * SIM_W + 5) * (1 / 2) ^ 2 ∧
    ((fun t => stamp ToolType.ERASER ⟨0, 0, 0⟩ 1 50 50 ((5 : ℕ) : ℤ) ((7 : ℕ) : ℤ) 1 t)^[2]
        zeroState).pb (7 * SIM_W + 5) = zeroState.pb (7 * SIM_W + 5) * (1 / 2) ^ 2 ∧
    (0 < zeroState.wm (7 * SIM_W + 5) →
      0 < ((fun t => stamp ToolType.ERASER ⟨0, 0, 0⟩ 1 50 50 ((5 : ℕ) : ℤ) ((7 : ℕ) : ℤ) 1 t)^[2]
        zeroState).wm (7 * SIM_W + 5)) ∧
    (0 < zeroState.pr (7 * SIM_W + 5) →
      0 < ((fun t => stamp ToolType.ERASER ⟨0, 0, 0⟩ 1 50 50 ((5 : ℕ) : ℤ) ((7 : ℕ) : ℤ) 1 t)^[2]
        zeroState).pr (7 * SIM_W + 5))) :=
  ⟨by norm_num [SIM_W], by norm_num [SIM_H], le_refl 1,
    C8_eraser_halves ⟨0, 0, 0⟩ 50 50 5 7 (by norm_num [SIM_W]) (by norm_num [SIM_H])
      1 (le_refl 1) zeroState 2⟩

/-- A BRUSH or WATER stamping-loop iteration on a covered cell (squared
distance at most `rSq`) sets that cell's wetness to exactly 1, whatever the
pressure. -/
lemma stampCell_covered_wet (tool : ToolType)
    (htool : tool = ToolType.BRUSH ∨ tool = ToolType.WATER)
    (col : RGB) (pressure wl pl : ℚ) (simX simY : ℤ) (rSq : ℚ) (s : GridState)
    (c : ℕ × ℕ)
    (hcov : ((c.1 : ℚ) - ((simX : ℤ) : ℚ)) ^ 2 + ((c.2 : ℚ) - ((simY : ℤ) : ℚ)) ^ 2 ≤ rSq) :
    (stampCell tool col pressure wl pl simX simY rSq s c).wet (cellIdx c) = 1 := by
  rcases c with ⟨cx, cy⟩
  simp only [stampCell]
  rw [if_pos hcov]
  rcases htool with rfl | rfl <;> simp [cellIdx, upd_same]

/-- A zero-pressure BRUSH or WATER stamping-loop iteration never changes a
pigment value, never increases water, and leaves water unchanged wherever it
is at most the cap 10. -/
lemma stampCell_zero_pressure (tool : ToolType)
    (htool : tool = ToolType.BRUSH ∨ tool = ToolType.WATER)
    (col : RGB) (wl pl : ℚ) (simX simY : ℤ) (rSq : ℚ) (s : GridState)
    (c : ℕ × ℕ) (k : ℕ) :
    (stampCell tool col 0 wl pl simX simY rSq s c).pr k = s.pr k ∧
    (stampCell tool col 0 wl pl simX simY rSq s c).pg k = s.pg k ∧
    (stampCell tool col 0 wl pl simX simY rSq s c).pb k = s.pb k ∧
    (stampCell tool col 0 wl pl simX simY rSq s c).wm k ≤ s.wm k ∧
    (s.wm k ≤ 10 → (stampCell tool col 0 wl pl simX simY rSq s c).wm k = s.wm k) := by
  rcases c with ⟨cx, cy⟩
  by_cases hif : (((cx : ℚ) - ((simX : ℤ) : ℚ)) ^ 2 + ((cy : ℚ) - ((simY : ℤ) : ℚ)) ^ 2 ≤ rSq)
  · rcases htool with rfl | rfl <;>
    · simp only [stampCell]
      rw [if_pos hif]
      simp only [mul_zero, zero_mul, add_zero, zero_div, mul_one, sub_zero, one_mul]
      by_cases hk : k = cy * SIM_W + cx
      · subst hk
        refine ⟨?_, ?_, ?_, ?_, ?_⟩
        · simp [upd]
        · simp [upd]
        · simp [upd]
        · simp only [upd_same]
          exact min_le_right _ _
        · intro hle
          simp only [upd_same]
          exact min_eq_right hle
      · simp [upd_ne _ _ _ hk]
  · rcases htool with rfl | rfl <;>
    · simp only [stampCell]
      rw [if_neg hif]
      exact ⟨rfl, rfl, rfl, le_refl _, fun _ => rfl⟩

/-- Folding zero-pressure BRUSH or WATER stamping over any cell list
preserves pigment everywhere, never increases water, and leaves water
unchanged wherever it is at most 10. -/
lemma stampFold_zero_pressure (tool : ToolType)
    (htool : tool = ToolType.BRUSH ∨ tool = ToolType.WATER)
    (col : RGB) (wl pl : ℚ) (simX simY : ℤ) (rSq : ℚ) (l : List (ℕ × ℕ))
    (s : GridState) (k : ℕ) :
    (l.foldl (stampCell tool col 0 wl pl simX simY rSq) s).pr k = s.pr k ∧
    (l.foldl (stampCell tool col 0 wl pl simX simY rSq) s).pg k = s.pg k ∧
    (l.foldl (stampCell tool col 0 wl pl simX simY rSq) s).pb k = s.pb k ∧
    (l.foldl (stampCell tool col 0 wl pl simX simY rSq) s).wm k ≤ s.wm k ∧
    (s.wm k ≤ 10 → (l.foldl (stampCell tool col 0 wl pl simX simY rSq) s).wm k = s.wm k) := by
  induction l generalizing s with
  | nil => exact ⟨rfl, rfl, rfl, le_refl _, fun _ => rfl⟩
  | cons a l ih =>
      have hcell := stampCell_zero_pressure tool htool col wl pl simX simY rSq s a k
      have ihs := ih (stampCell tool col 0 wl pl simX simY rSq s a)
      rw [List.foldl_cons]
      refine ⟨ihs.1.trans hcell.1, ihs.2.1.trans hcell.2.1, ihs.2.2.1.trans hcell.2.2.1,
        le_trans ihs.2.2.2.1 hcell.2.2.2.1, ?_⟩
      intro hle
      have h1 : (stampCell tool col 0 wl pl simX simY rSq s a).wm k = s.wm k :=
        hcell.2.2.2.2 hle
      have h2 : (stampCell tool col 0 wl pl simX simY rSq s a).wm k ≤ 10 := by
        rw [h1]; exact hle
      exact (ihs.2.2.2.2 h2).trans h1

/-- **C10** (corrected).  A BRUSH or WATER stamp sets wetness to exactly 1
at every *visited* candidate cell of the clipped half-open bounding box
whose squared distance from the center is at most `radius²`, for any
pressure — including `amount = 0` cells; and a zero-pressure BRUSH or WATER
stamp changes no pigment value, never increases water, and leaves water
unchanged wherever it does not exceed the cap 10.  (Covered cells at exact
distance `radius` on the `+x`/`+y` side can fall outside the half-open
bounding box and are then not touched at all — see the counterexample.) -/
theorem C10_zero_pressure_stamp (tool : ToolType)
    (htool : tool = ToolType.BRUSH ∨ tool = ToolType.WATER)
    (col : RGB) (pressure wl pl : ℚ) (simX simY : ℤ) (r : ℚ) (s : GridState) :
    (∀ c ∈ stampCells simX simY r,
      ((c.1 : ℚ) - ((simX : ℤ) : ℚ)) ^ 2 + ((c.2 : ℚ) - ((simY : ℤ) : ℚ)) ^ 2 ≤ r * r →
      (stamp tool col pressure wl pl simX simY r s).wet (cellIdx c) = 1) ∧
    (∀ k,
      (stamp tool col 0 wl pl simX simY r s).pr k = s.pr k ∧
      (stamp tool col 0 wl pl simX simY r s).pg k = s.pg k ∧
      (stamp tool col 0 wl pl simX simY r s).pb k = s.pb k ∧
      (stamp tool col 0 wl pl simX simY r s).wm k ≤ s.wm k ∧
      (s.wm k ≤ 10 → (stamp tool col 0 wl pl simX simY r s).wm k = s.wm k)) := by
  constructor
  · intro c hc hcov
    have hnd := stampCells_keys_nodup simX simY r
    have hpt := stampFold_point tool col pressure wl pl simX simY (r * r)
      (stampCells simX simY r) s c hnd hc
    unfold stamp
    rw [hpt.2.1]
    exact stampCell_covered_wet tool htool col pressure wl pl simX simY (r * r) s c hcov
  · intro k
    unfold stamp
    exact stampFold_zero_pressure tool htool col wl pl simX simY (r * r)
      (stampCells simX simY r) s k

/-- **C10** witness: the amended statement instantiated for a zero-pressure
WATER stamp of radius 1 at `(200,150)` on the all-zero grid, checked at the
visited covered cell `(199,150)` and at the center index. -/
theorem C10_zero_pressure_stamp_witness :
    (ToolType.WATER = ToolType.BRUSH ∨ ToolType.WATER = ToolType.WATER) ∧
    ((199, 150) : ℕ × ℕ) ∈ stampCells 200 150 1 ∧
    (((199 : ℕ) : ℚ) - ((200 : ℤ) : ℚ)) ^ 2 + (((150 : ℕ) : ℚ) - ((150 : ℤ) : ℚ)) ^ 2 ≤ 1 * 1 ∧
    (stamp ToolType.WATER ⟨0, 0, 0⟩ 0 50 50 200 150 1 zeroState).wet (cellIdx (199, 150)) = 1 ∧
    (stamp ToolType.WATER ⟨0, 0, 0⟩ 0 50 50 200 150 1 zeroState).pr 60200 = zeroState.pr 60200 ∧
    (stamp ToolType.WATER ⟨0, 0, 0⟩ 0 50 50 200 150 1 zeroState).wm 60200 ≤ zeroState.wm 60200 := by
  have hmem : ((199, 150) : ℕ × ℕ) ∈ stampCells 200 150 1 := by
    have hc : stampCells 200 150 1 = [(199, 149), (200, 149), (199, 150), (200, 150)] := by
      norm_num [stampCells]
      decide
    rw [hc]
    simp
  have hcov : (((199 : ℕ) : ℚ) - ((200 : ℤ) : ℚ)) ^ 2
      + (((150 : ℕ) : ℚ) - ((150 : ℤ) : ℚ)) ^ 2 ≤ 1 * 1 := by norm_num
  have h := C10_zero_pressure_stamp ToolType.WATER (Or.inr rfl) ⟨0, 0, 0⟩ 0 50 50
    200 150 1 zeroState
  exact ⟨Or.inr rfl, hmem, hcov, h.1 (199, 150) hmem hcov, (h.2 60200).1,
    (h.2 60200).2.2.2.1⟩

/-- **C10** counterexample: for the WATER stamp of radius 1 centered at
`(200,150)`, the cell `(201,150)` has squared distance exactly `radius²`
(so the claim says its wetness becomes 1), but it lies outside the
half-open bounding box, is never visited, and its wetness stays 0. -/
theorem C10_zero_pressure_stamp_cex :
    (((201 : ℕ) : ℚ) - ((200 : ℤ) : ℚ)) ^ 2 + (((150 : ℕ) : ℚ) - ((150 : ℤ) : ℚ)) ^ 2 ≤ 1 * 1 ∧
    (stamp ToolType.WATER ⟨0, 0, 0⟩ 0 50 50 200 150 1 zeroState).wet (cellIdx (201, 150)) = 0 ∧
    (0 : ℚ) ≠ 1 := by
  refine ⟨by norm_num, ?_, by norm_num⟩
  have hc : stampCells 200 150 1 = [(199, 149), (200, 149), (199, 150), (200, 150)] := by
    norm_num [stampCells]
    decide
  have hne : ∀ c ∈ stampCells 200 150 1, cellIdx (201, 150) ≠ cellIdx c := by
    rw [hc]
    intro c hcm
    fin_cases hcm <;> norm_num [cellIdx, SIM_W]
  unfold stamp
  have h := stampFold_ne ToolType.WATER ⟨0, 0, 0⟩ 0 50 50 200 150 (1 * 1)
    (stampCells 200 150 1) zeroState hne
  rw [h.2.1]
  rfl

/-- The code's per-neighbor body agrees with the spec transcription of
§4.3 step 4 applied to that neighbor and bias. -/
lemma neighborFlow_eq_specFlow (i j : ℕ) (b : ℚ) (acc : GridState × ℚ × ℚ) :
    neighborFlow i acc (j, b) = specFlowStep i j b acc := by
  unfold neighborFlow specFlowStep
  rfl

/-- **C7** (confirmed).  Every transport-step cell update processes the four
neighbor candidates in exactly the order right, left, down, up with gravity
biases `-gravityX, +gravityX, +gravityY, -gravityY`; for each in turn while
`availableFlow > 0` it computes `gradient = (water[i] - water[neighbor]) +
bias·5` against the local `water[i]` tracker, and when `gradient > 0` and
`flow = min(availableFlow, gradient·0.1) > 0.001` it moves `flow` water
units from `i` to the neighbor, moves pigment in proportion
`ratio = flow / waterBeforeThisTransferAtI`, sets the neighbor's wetness to
1, and decrements `availableFlow` and the tracker by `flow`: the code's cell
update coincides with this spec transcription on every state. -/
theorem C7_neighbor_order (p : SimParams) (x y : ℕ) (s : GridState) :
    updateCell p x y s = transportCellSpec p x y s := by
  unfold updateCell transportCellSpec
  simp only [List.foldl_cons, List.foldl_nil, neighborFlow_eq_specFlow]

/-- **C6** (corrected).  A cell with all-zero pigment and zero water renders
exactly the opaque paper pixel `(250,246,235,255)` in paint view; in the
wetness-debug view the same cell takes the `else` branch and renders that
same opaque paper pixel — not a fully transparent one. -/
theorem C6_compositor_paper (s : GridState) (i : ℕ)
    (hr : s.pr i = 0) (hg : s.pg i = 0) (hb : s.pb i = 0) (hw : s.wm i = 0) :
    renderCell false s i = ⟨250, 246, 235, 255⟩ ∧
    renderCell true s i = ⟨250, 246, 235, 255⟩ := by
  unfold renderCell
  rw [hr, hg, hb, hw]
  norm_num

/-- **C6** witness: the all-zero grid at cell 0. -/
theorem C6_compositor_paper_witness :
    zeroState.pr 0 = 0 ∧ zeroState.pg 0 = 0 ∧ zeroState.pb 0 = 0 ∧ zeroState.wm 0 = 0 ∧
    (renderCell false zeroState 0 = ⟨250, 246, 235, 255⟩ ∧
     renderCell true zeroState 0 = ⟨250, 246, 235, 255⟩) :=
  ⟨rfl, rfl, rfl, rfl, C6_compositor_paper zeroState 0 rfl rfl rfl rfl⟩

/-- **C6** counterexample: in wetness-debug view a zero-water cell (cell 0
of the all-zero grid) renders with alpha channel 255, not as a fully
transparent pixel (alpha 0). -/
theorem C6_compositor_paper_cex :
    (renderCell true zeroState 0).a = 255 ∧ (255 : ℚ) ≠ 0 := by
  constructor
  · unfold renderCell
    norm_num [zeroState]
  · norm_num

/-! ## Transport-step lemmas -/

/-- The clamped index helper always yields an in-grid flat index. -/
lemma idx_lt (x y : ℤ) : idx x y < NCELLS := by
  unfold idx
  simp only [SIM_W, SIM_H, NCELLS]
  split_ifs <;> omega

/-- In-grid loop coordinates give an in-grid flat index. -/
lemma flat_lt {x y : ℕ} (hx : x < SIM_W) (hy : y < SIM_H) :
    y * SIM_W + x < NCELLS := by
  simp only [SIM_W, SIM_H, NCELLS] at *
  omega

/-- A neighbor-flow iteration writes water only at the source cell `i` and
the receiving cell `n.1`. -/
lemma neighborFlow_wm_ne (i : ℕ) (acc : GridState × ℚ × ℚ) (n : ℕ × ℚ)
    {k : ℕ} (hki : k ≠ i) (hkj : k ≠ n.1) :
    (neighborFlow i acc n).1.wm k = acc.1.wm k := by
  simp only [neighborFlow]
  split_ifs <;> simp [upd_ne _ _ _ hki, upd_ne _ _ _ hkj]

/-- A neighbor-flow iteration preserves the grid total of water and of each
pigment channel, also for boundary self-transfers. -/
lemma neighborFlow_sumQ (i : ℕ) (hi : i < NCELLS) (acc : GridState × ℚ × ℚ)
    (n : ℕ × ℚ) (hj : n.1 < NCELLS) :
    sumQ (neighborFlow i acc n).1.wm = sumQ acc.1.wm ∧
    sumQ (neighborFlow i acc n).1.pr = sumQ acc.1.pr ∧
    sumQ (neighborFlow i acc n).1.pg = sumQ acc.1.pg ∧
    sumQ (neighborFlow i acc n).1.pb = sumQ acc.1.pb := by
  simp only [neighborFlow]
  split_ifs with h1 h2 h3
  · exact ⟨rfl, rfl, rfl, rfl⟩
  · refine ⟨?_, ?_, ?_, ?_⟩ <;>
    · simp only []
      exact sumQ_transfer _ hi hj _
  · exact ⟨rfl, rfl, rfl, rfl⟩
  · exact ⟨rfl, rfl, rfl, rfl⟩

/-- Nonnegativity is preserved by a subtract-at-`i`, add-at-`j` transfer of
a nonnegative amount that does not exceed the value at `i`. -/
lemma upd_transfer_nonneg (f : ℕ → ℚ) (i j : ℕ) (mv : ℚ) (hmv : 0 ≤ mv)
    (hf : ∀ k, 0 ≤ f k) (hkeep : 0 ≤ f i - mv) :
    ∀ k, 0 ≤ upd (upd f i (f i - mv)) j ((upd f i (f i - mv)) j + mv) k := by
  intro k
  by_cases hkj : k = j
  · subst hkj
    rw [upd_same]
    by_cases hki : k = i
    · subst hki
      rw [upd_same]
      linarith
    · rw [upd_ne _ _ _ hki]
      linarith [hf k]
  · rw [upd_ne _ _ _ hkj]
    by_cases hki : k = i
    · subst hki
      rw [upd_same]
      exact hkeep
    · rw [upd_ne _ _ _ hki]
      exact hf k

/-- After a transfer, the stored water at the source cell is at least its
pre-transfer value minus the moved amount (with equality unless the
receiver is the source itself). -/
lemma upd_transfer_at_src (f : ℕ → ℚ) (i j : ℕ) (mv : ℚ) (hmv : 0 ≤ mv) :
    f i - mv ≤ upd (upd f i (f i - mv)) j ((upd f i (f i - mv)) j + mv) i := by
  by_cases hji : j = i
  · subst hji
    rw [upd_same, upd_same]
    linarith
  · have hij : i ≠ j := fun h => hji h.symm
    rw [upd_ne _ _ _ hij, upd_same]

/-- One neighbor-flow iteration preserves nonnegativity of water and
pigment, and the tracker invariants `amountToFlow ≤ totalWater` and
`totalWater ≤ water[i]`. -/
lemma neighborFlow_preserves (i j : ℕ) (b : ℚ) (s : GridState) (atf tw : ℚ)
    (hw : ∀ k, 0 ≤ s.wm k) (hpr : ∀ k, 0 ≤ s.pr k)
    (hpg : ∀ k, 0 ≤ s.pg k) (hpb : ∀ k, 0 ≤ s.pb k)
    (hat : atf ≤ tw) (htw : tw ≤ s.wm i) :
    (∀ k, 0 ≤ (neighborFlow i (s, atf, tw) (j, b)).1.wm k) ∧
    (∀ k, 0 ≤ (neighborFlow i (s, atf, tw) (j, b)).1.pr k) ∧
    (∀ k, 0 ≤ (neighborFlow i (s, atf, tw) (j, b)).1.pg k) ∧
    (∀ k, 0 ≤ (neighborFlow i (s, atf, tw) (j, b)).1.pb k) ∧
    (neighborFlow i (s, atf, tw) (j, b)).2.1 ≤ (neighborFlow i (s, atf, tw) (j, b)).2.2 ∧
    (neighborFlow i (s, atf, tw) (j, b)).2.2 ≤
      (neighborFlow i (s, atf, tw) (j, b)).1.wm i := by
  simp only [neighborFlow]
  split_ifs with h1 h2 h3
  · exact ⟨hw, hpr, hpg, hpb, hat, htw⟩
  · -- fired transfer
    have hfl_pos : 0 < min atf ((tw - s.wm j + b * 5) * (1 / 10)) := by
      have h : (0 : ℚ) < 1 / 1000 := by norm_num
      linarith [h3]
    have hfl_atf : min atf ((tw - s.wm j + b * 5) * (1 / 10)) ≤ atf := min_le_left _ _
    have hfl_tw : min atf ((tw - s.wm j + b * 5) * (1 / 10)) ≤ tw := hfl_atf.trans hat
    have htw_pos : 0 < tw := lt_of_lt_of_le hfl_pos hfl_tw
    have hratio0 : 0 ≤ min atf ((tw - s.wm j + b * 5) * (1 / 10)) / tw :=
      div_nonneg hfl_pos.le htw_pos.le
    have hratio1 : min atf ((tw - s.wm j + b * 5) * (1 / 10)) / tw ≤ 1 :=
      (div_le_one htw_pos).mpr hfl_tw
    refine ⟨?_, ?_, ?_, ?_, ?_, ?_⟩
    · exact upd_transfer_nonneg s.wm i j _ hfl_pos.le hw (by linarith)
    · refine upd_transfer_nonneg s.pr i j _ (mul_nonneg (hpr i) hratio0) hpr ?_
      have h := mul_nonneg (hpr i)
        (by linarith : (0 : ℚ) ≤ 1 - min atf ((tw - s.wm j + b * 5) * (1 / 10)) / tw)
      nlinarith
    · refine upd_transfer_nonneg s.pg i j _ (mul_nonneg (hpg i) hratio0) hpg ?_
      have h := mul_nonneg (hpg i)
        (by linarith : (0 : ℚ) ≤ 1 - min atf ((tw - s.wm j + b * 5) * (1 / 10)) / tw)
      nlinarith
    · refine upd_transfer_nonneg s.pb i j _ (mul_nonneg (hpb i) hratio0) hpb ?_
      have h := mul_nonneg (hpb i)
        (by linarith : (0 : ℚ) ≤ 1 - min atf ((tw - s.wm j + b * 5) * (1 / 10)) / tw)
      nlinarith
    · exact sub_le_sub_right hat _
    · exact le_trans (sub_le_sub_right htw _)
        (upd_transfer_at_src s.wm i j _ hfl_pos.le)
  · exact ⟨hw, hpr, hpg, hpb, hat, htw⟩
  · exact ⟨hw, hpr, hpg, hpb, hat, htw⟩

lemma foldl_preserves {α β : Type} (g : β → α → β) (P : β → Prop)
    (l : List α) (s : β) (h : P s) (hstep : ∀ t a, a ∈ l → P t → P (g t a)) :
    P (l.foldl g s) := by
  induction l generalizing s with
  | nil => exact h
  | cons a l ih =>
      exact ih (g s a) (hstep s a (List.mem_cons_self a l) h)
        (fun t b hb => hstep t b (List.mem_cons_of_mem a hb))

/-- One transport cell update preserves nonnegativity of water and pigment,
for any gravity, provided `0 ≤ diffusionSpeed ≤ 1`. -/
lemma updateCell_nonneg (p : SimParams) (_hd0 : 0 ≤ p.diffusionSpeed)
    (hd1 : p.diffusionSpeed ≤ 1) (x y : ℕ) (s : GridState)
    (hw : ∀ k, 0 ≤ s.wm k) (hpr : ∀ k, 0 ≤ s.pr k)
    (hpg : ∀ k, 0 ≤ s.pg k) (hpb : ∀ k, 0 ≤ s.pb k) :
    (∀ k, 0 ≤ (updateCell p x y s).wm k) ∧
    (∀ k, 0 ≤ (updateCell p x y s).pr k) ∧
    (∀ k, 0 ≤ (updateCell p x y s).pg k) ∧
    (∀ k, 0 ≤ (updateCell p x y s).pb k) := by
  simp only [updateCell]
  split_ifs with h1 h2
  · exact ⟨hw, hpr, hpg, hpb⟩
  · refine ⟨fun k => ?_, hpr, hpg, hpb⟩
    show (0 : ℚ) ≤ upd s.wm (y * SIM_W + x) (max 0 (s.wm (y * SIM_W + x) - p.evaporationRate)) k
    by_cases hk : k = y * SIM_W + x
    · subst hk
      rw [upd_same]
      exact le_max_left _ _
    · rw [upd_ne _ _ _ hk]
      exact hw k
  · have hP := foldl_preserves (neighborFlow (y * SIM_W + x))
      (fun acc =>
        (∀ k, 0 ≤ acc.1.wm k) ∧ (∀ k, 0 ≤ acc.1.pr k) ∧
        (∀ k, 0 ≤ acc.1.pg k) ∧ (∀ k, 0 ≤ acc.1.pb k) ∧
        acc.2.1 ≤ acc.2.2 ∧ acc.2.2 ≤ acc.1.wm (y * SIM_W + x))
      [(idx ((x : ℤ) + 1) (y : ℤ), -p.gravityX),
       (idx ((x : ℤ) - 1) (y : ℤ), p.gravityX),
       (idx (x : ℤ) ((y : ℤ) + 1), p.gravityY),
       (idx (x : ℤ) ((y : ℤ) - 1), -p.gravityY)]
      ({ s with wm := upd s.wm (y * SIM_W + x) (max 0 (s.wm (y * SIM_W + x) - p.evaporationRate)) }, max 0 (s.wm (y * SIM_W + x) - p.evaporationRate) * p.diffusionSpeed, max 0 (s.wm (y * SIM_W + x) - p.evaporationRate))
      (by
        refine ⟨?_, hpr, hpg, hpb, ?_, ?_⟩
        · intro k
          by_cases hk : k = y * SIM_W + x
          · subst hk
            show (0 : ℚ) ≤ upd s.wm (y * SIM_W + x) (max 0 (s.wm (y * SIM_W + x) - p.evaporationRate)) (y * SIM_W + x)
            rw [upd_same]
            exact le_max_left _ _
          · show (0 : ℚ) ≤ upd s.wm (y * SIM_W + x) (max 0 (s.wm (y * SIM_W + x) - p.evaporationRate)) k
            rw [upd_ne _ _ _ hk]
            exact hw k
        · exact mul_le_of_le_one_right (le_max_left _ _) hd1
        · show max 0 (s.wm (y * SIM_W + x) - p.evaporationRate) ≤ upd s.wm (y * SIM_W + x) (max 0 (s.wm (y * SIM_W + x) - p.evaporationRate)) (y * SIM_W + x)
          rw [upd_same])
      (fun t a _ ht => by
        obtain ⟨s2, atf, tw⟩ := t
        obtain ⟨j, b⟩ := a
        exact neighborFlow_preserves (y * SIM_W + x) j b s2 atf tw
          ht.1 ht.2.1 ht.2.2.1 ht.2.2.2.1 ht.2.2.2.2.1 ht.2.2.2.2.2)
    exact ⟨hP.1, hP.2.1, hP.2.2.1, hP.2.2.2.1⟩


/-- Definitional form of the transport sweep as a flat fold. -/
lemma transportStep_def (p : SimParams) (s : GridState) :
    transportStep p s
      = (List.range NCELLS).foldl (fun s i => updateCell p (i % SIM_W) (i / SIM_W) s) s := rfl

lemma sweepFold_nonneg (p : SimParams) (_hd0 : 0 ≤ p.diffusionSpeed)
    (hd1 : p.diffusionSpeed ≤ 1) (l : List ℕ) :
    ∀ s : GridState,
    (∀ k, 0 ≤ s.wm k) → (∀ k, 0 ≤ s.pr k) → (∀ k, 0 ≤ s.pg k) → (∀ k, 0 ≤ s.pb k) →
    (∀ k, 0 ≤ (l.foldl (fun s i => updateCell p (i % SIM_W) (i / SIM_W) s) s).wm k) ∧
    (∀ k, 0 ≤ (l.foldl (fun s i => updateCell p (i % SIM_W) (i / SIM_W) s) s).pr k) ∧
    (∀ k, 0 ≤ (l.foldl (fun s i => updateCell p (i % SIM_W) (i / SIM_W) s) s).pg k) ∧
    (∀ k, 0 ≤ (l.foldl (fun s i => updateCell p (i % SIM_W) (i / SIM_W) s) s).pb k) := by
  induction l with
  | nil => exact fun s hw hpr hpg hpb => ⟨hw, hpr, hpg, hpb⟩
  | cons a l ih =>
      intro s hw hpr hpg hpb
      have hcell := updateCell_nonneg p _hd0 hd1 (a % SIM_W) (a / SIM_W) s hw hpr hpg hpb
      exact ih (updateCell p (a % SIM_W) (a / SIM_W) s)
        hcell.1 hcell.2.1 hcell.2.2.1 hcell.2.2.2

lemma transportStep_nonneg (p : SimParams) (hd0 : 0 ≤ p.diffusionSpeed)
    (hd1 : p.diffusionSpeed ≤ 1) (s : GridState)
    (hw : ∀ k, 0 ≤ s.wm k) (hpr : ∀ k, 0 ≤ s.pr k)
    (hpg : ∀ k, 0 ≤ s.pg k) (hpb : ∀ k, 0 ≤ s.pb k) :
    (∀ k, 0 ≤ (transportStep p s).wm k) ∧
    (∀ k, 0 ≤ (transportStep p s).pr k) ∧
    (∀ k, 0 ≤ (transportStep p s).pg k) ∧
    (∀ k, 0 ≤ (transportStep p s).pb k) := by
  rw [transportStep_def]
  exact sweepFold_nonneg p hd0 hd1 (List.range NCELLS) s hw hpr hpg hpb

/-- Writing a nonnegative value into a nonnegative array keeps it
nonnegative. -/
lemma upd_nonneg (f : ℕ → ℚ) (i : ℕ) (v : ℚ) (hv : 0 ≤ v)
    (hf : ∀ k, 0 ≤ f k) : ∀ k, 0 ≤ upd f i v k := by
  intro k
  by_cases hk : k = i
  · subst hk
    rw [upd_same]
    exact hv
  · rw [upd_ne _ _ _ hk]
    exact hf k

/-- With in-range brush parameters, one stamping-loop iteration preserves
nonnegativity of water and pigment. -/
lemma stampCell_nonneg (tool : ToolType) (col : RGB) (pressure wl pl : ℚ)
    (simX simY : ℤ) (rSq : ℚ) (s : GridState) (c : ℕ × ℕ)
    (hp0 : 0 ≤ pressure) (hp1 : pressure ≤ 1) (hwl0 : 0 ≤ wl)
    (hpl0 : 0 ≤ pl) (hpl1 : pl ≤ 100)
    (hcr : 0 ≤ col.r) (hcg : 0 ≤ col.g) (hcb : 0 ≤ col.b) (hrSq : 0 ≤ rSq)
    (hw : ∀ k, 0 ≤ s.wm k) (hpr : ∀ k, 0 ≤ s.pr k)
    (hpg : ∀ k, 0 ≤ s.pg k) (hpb : ∀ k, 0 ≤ s.pb k) :
    (∀ k, 0 ≤ (stampCell tool col pressure wl pl simX simY rSq s c).wm k) ∧
    (∀ k, 0 ≤ (stampCell tool col pressure wl pl simX simY rSq s c).pr k) ∧
    (∀ k, 0 ≤ (stampCell tool col pressure wl pl simX simY rSq s c).pg k) ∧
    (∀ k, 0 ≤ (stampCell tool col pressure wl pl simX simY rSq s c).pb k) := by
  rcases c with ⟨cx, cy⟩
  by_cases hif : (((cx : ℚ) - ((simX : ℤ) : ℚ)) ^ 2 + ((cy : ℚ) - ((simY : ℤ) : ℚ)) ^ 2 ≤ rSq)
  case neg =>
    cases tool <;>
      simp only [stampCell] <;>
      rw [if_neg hif] <;>
      exact ⟨hw, hpr, hpg, hpb⟩
  case pos =>
  have hds : (0 : ℚ) ≤ ((cx : ℚ) - ((simX : ℤ) : ℚ)) ^ 2 + ((cy : ℚ) - ((simY : ℤ) : ℚ)) ^ 2 :=
    add_nonneg (sq_nonneg _) (sq_nonneg _)
  have hdiv1 : (((cx : ℚ) - ((simX : ℤ) : ℚ)) ^ 2 + ((cy : ℚ) - ((simY : ℤ) : ℚ)) ^ 2) / rSq ≤ 1 := by
    rcases eq_or_lt_of_le hrSq with h | h
    · have h0 : rSq = 0 := h.symm
      rw [h0, div_zero]
      norm_num
    · exact (div_le_one h).mpr hif
  have hdiv0 : 0 ≤ (((cx : ℚ) - ((simX : ℤ) : ℚ)) ^ 2 + ((cy : ℚ) - ((simY : ℤ) : ℚ)) ^ 2) / rSq :=
    div_nonneg hds hrSq
  have hfall0 : 0 ≤ 1 - (((cx : ℚ) - ((simX : ℤ) : ℚ)) ^ 2 + ((cy : ℚ) - ((simY : ℤ) : ℚ)) ^ 2) / rSq := by
    linarith
  have hfall1 : 1 - (((cx : ℚ) - ((simX : ℤ) : ℚ)) ^ 2 + ((cy : ℚ) - ((simY : ℤ) : ℚ)) ^ 2) / rSq ≤ 1 := by
    linarith
  have hamt0 : 0 ≤ (1 - (((cx : ℚ) - ((simX : ℤ) : ℚ)) ^ 2 + ((cy : ℚ) - ((simY : ℤ) : ℚ)) ^ 2) / rSq) * pressure :=
    mul_nonneg hfall0 hp0
  have hamt1 : (1 - (((cx : ℚ) - ((simX : ℤ) : ℚ)) ^ 2 + ((cy : ℚ) - ((simY : ℤ) : ℚ)) ^ 2) / rSq) * pressure ≤ 1 :=
    mul_le_one₀ hfall1 hp0 hp1
  have hplq0 : (0 : ℚ) ≤ pl / 100 := div_nonneg hpl0 (by norm_num)
  have hplq1 : pl / 100 ≤ 1 := by linarith
  cases tool
  case BRUSH =>
    simp only [stampCell]
    rw [if_pos hif]
    have halpha0 : 0 ≤ (1 - (((cx : ℚ) - ((simX : ℤ) : ℚ)) ^ 2 + ((cy : ℚ) - ((simY : ℤ) : ℚ)) ^ 2) / rSq) * pressure * (pl / 100) * (1 / 2) :=
      mul_nonneg (mul_nonneg hamt0 hplq0) (by norm_num)
    have halpha1 : (1 - (((cx : ℚ) - ((simX : ℤ) : ℚ)) ^ 2 + ((cy : ℚ) - ((simY : ℤ) : ℚ)) ^ 2) / rSq) * pressure * (pl / 100) * (1 / 2) ≤ 1 :=
      mul_le_one₀ (mul_le_one₀ hamt1 hplq0 hplq1) (by norm_num) (by norm_num)
    refine ⟨upd_nonneg _ _ _ ?_ hw, upd_nonneg _ _ _ ?_ hpr,
      upd_nonneg _ _ _ ?_ hpg, upd_nonneg _ _ _ ?_ hpb⟩
    · exact le_min (by norm_num)
        (add_nonneg (hw _) (mul_nonneg hamt0 (by linarith : (0 : ℚ) ≤ wl / 20)))
    · exact add_nonneg (mul_nonneg (hpr _) (by linarith)) (mul_nonneg hcr halpha0)
    · exact add_nonneg (mul_nonneg (hpg _) (by linarith)) (mul_nonneg hcg halpha0)
    · exact add_nonneg (mul_nonneg (hpb _) (by linarith)) (mul_nonneg hcb halpha0)
  case WATER =>
    simp only [stampCell]
    rw [if_pos hif]
    refine ⟨upd_nonneg _ _ _ ?_ hw, hpr, hpg, hpb⟩
    exact le_min (by norm_num)
      (add_nonneg (hw _) (mul_nonneg hamt0 (by linarith : (0 : ℚ) ≤ wl / 10)))
  case DRY =>
    simp only [stampCell]
    rw [if_pos hif]
    exact ⟨upd_nonneg _ _ _ (le_max_left _ _) hw, hpr, hpg, hpb⟩
  case ERASER =>
    simp only [stampCell]
    rw [if_pos hif]
    have he0 : 0 ≤ (1 - (((cx : ℚ) - ((simX : ℤ) : ℚ)) ^ 2 + ((cy : ℚ) - ((simY : ℤ) : ℚ)) ^ 2) / rSq) * pressure * (1 / 2) :=
      mul_nonneg hamt0 (by norm_num)
    have he1 : (1 - (((cx : ℚ) - ((simX : ℤ) : ℚ)) ^ 2 + ((cy : ℚ) - ((simY : ℤ) : ℚ)) ^ 2) / rSq) * pressure * (1 / 2) ≤ 1 :=
      mul_le_one₀ hamt1 (by norm_num) (by norm_num)
    refine ⟨upd_nonneg _ _ _ ?_ hw, upd_nonneg _ _ _ ?_ hpr,
      upd_nonneg _ _ _ ?_ hpg, upd_nonneg _ _ _ ?_ hpb⟩
    · exact mul_nonneg (hw _) (by linarith)
    · exact mul_nonneg (hpr _) (by linarith)
    · exact mul_nonneg (hpg _) (by linarith)
    · exact mul_nonneg (hpb _) (by linarith)
  case BLOW =>
    simp only [stampCell]
    rw [if_pos hif]
    exact ⟨hw, hpr, hpg, hpb⟩

/-- With in-range brush parameters, a whole stamp preserves nonnegativity
of water and pigment. -/
lemma stamp_nonneg (tool : ToolType) (col : RGB) (pressure wl pl : ℚ)
    (simX simY : ℤ) (radius : ℚ) (s : GridState)
    (hp0 : 0 ≤ pressure) (hp1 : pressure ≤ 1) (hwl0 : 0 ≤ wl)
    (hpl0 : 0 ≤ pl) (hpl1 : pl ≤ 100)
    (hcr : 0 ≤ col.r) (hcg : 0 ≤ col.g) (hcb : 0 ≤ col.b)
    (hw : ∀ k, 0 ≤ s.wm k) (hpr : ∀ k, 0 ≤ s.pr k)
    (hpg : ∀ k, 0 ≤ s.pg k) (hpb : ∀ k, 0 ≤ s.pb k) :
    (∀ k, 0 ≤ (stamp tool col pressure wl pl simX simY radius s).wm k) ∧
    (∀ k, 0 ≤ (stamp tool col pressure wl pl simX simY radius s).pr k) ∧
    (∀ k, 0 ≤ (stamp tool col pressure wl pl simX simY radius s).pg k) ∧
    (∀ k, 0 ≤ (stamp tool col pressure wl pl simX simY radius s).pb k) := by
  have hmain : ∀ (l : List (ℕ × ℕ)) (t : GridState),
      (∀ k, 0 ≤ t.wm k) → (∀ k, 0 ≤ t.pr k) → (∀ k, 0 ≤ t.pg k) → (∀ k, 0 ≤ t.pb k) →
      (∀ k, 0 ≤ (l.foldl (stampCell tool col pressure wl pl simX simY (radius * radius)) t).wm k) ∧
      (∀ k, 0 ≤ (l.foldl (stampCell tool col pressure wl pl simX simY (radius * radius)) t).pr k) ∧
      (∀ k, 0 ≤ (l.foldl (stampCell tool col pressure wl pl simX simY (radius * radius)) t).pg k) ∧
      (∀ k, 0 ≤ (l.foldl (stampCell tool col pressure wl pl simX simY (radius * radius)) t).pb k) := by
    intro l
    induction l with
    | nil => exact fun t h1 h2 h3 h4 => ⟨h1, h2, h3, h4⟩
    | cons a l ih =>
        intro t h1 h2 h3 h4
        have hc := stampCell_nonneg tool col pressure wl pl simX simY
          (radius * radius) t a hp0 hp1 hwl0 hpl0 hpl1 hcr hcg hcb
          (mul_self_nonneg radius) h1 h2 h3 h4
        exact ih (stampCell tool col pressure wl pl simX simY (radius * radius) t a)
          hc.1 hc.2.1 hc.2.2.1 hc.2.2.2
  unfold stamp
  exact hmain (stampCells simX simY radius) s hw hpr hpg hpb

/-- **C5** (confirmed).  Starting from any grid state with nonnegative water
and pigment, neither a stamp with in-range parameters (any tool) nor a
transport step with in-range parameters produces a negative water or
pigment value. -/
theorem C5_never_negative (tool : ToolType) (col : RGB) (pressure wl pl : ℚ)
    (simX simY : ℤ) (radius : ℚ) (p : SimParams) (s : GridState)
    (hp0 : 0 ≤ pressure) (hp1 : pressure ≤ 1) (hwl0 : 0 ≤ wl)
    (hpl0 : 0 ≤ pl) (hpl1 : pl ≤ 100)
    (hcr : 0 ≤ col.r) (hcg : 0 ≤ col.g) (hcb : 0 ≤ col.b)
    (hd0 : 0 ≤ p.diffusionSpeed) (hd1 : p.diffusionSpeed ≤ 1 / 2)
    (hw : ∀ k, 0 ≤ s.wm k) (hpr : ∀ k, 0 ≤ s.pr k)
    (hpg : ∀ k, 0 ≤ s.pg k) (hpb : ∀ k, 0 ≤ s.pb k) :
    (∀ k, 0 ≤ (stamp tool col pressure wl pl simX simY radius s).wm k ∧
      0 ≤ (stamp tool col pressure wl pl simX simY radius s).pr k ∧
      0 ≤ (stamp tool col pressure wl pl simX simY radius s).pg k ∧
      0 ≤ (stamp tool col pressure wl pl simX simY radius s).pb k) ∧
    (∀ k, 0 ≤ (transportStep p s).wm k ∧
      0 ≤ (transportStep p s).pr k ∧
      0 ≤ (transportStep p s).pg k ∧
      0 ≤ (transportStep p s).pb k) := by
  have hs := stamp_nonneg tool col pressure wl pl simX simY radius s
    hp0 hp1 hwl0 hpl0 hpl1 hcr hcg hcb hw hpr hpg hpb
  have ht := transportStep_nonneg p hd0 (by linarith) s hw hpr hpg hpb
  exact ⟨fun k => ⟨hs.1 k, hs.2.1 k, hs.2.2.1 k, hs.2.2.2 k⟩,
    fun k => ⟨ht.1 k, ht.2.1 k, ht.2.2.1 k, ht.2.2.2 k⟩⟩

/-- **C5** witness: a pressure-0.5 BRUSH stamp and a transport step with the
default parameters on the all-zero grid, checked at cell 0. -/
theorem C5_never_negative_witness :
    (0 : ℚ) ≤ 1 / 2 ∧ (1 : ℚ) / 2 ≤ 1 ∧ (0 : ℚ) ≤ 60 ∧ (0 : ℚ) ≤ 80 ∧ (80 : ℚ) ≤ 100 ∧
    (0 : ℚ) ≤ 3 / 20 ∧ (3 : ℚ) / 20 ≤ 1 / 2 ∧
    (0 ≤ (stamp ToolType.BRUSH ⟨40, 150, 250⟩ (1 / 2) 60 80 200 150 1 zeroState).wm 0 ∧
      0 ≤ (stamp ToolType.BRUSH ⟨40, 150, 250⟩ (1 / 2) 60 80 200 150 1 zeroState).pr 0 ∧
      0 ≤ (stamp ToolType.BRUSH ⟨40, 150, 250⟩ (1 / 2) 60 80 200 150 1 zeroState).pg 0 ∧
      0 ≤ (stamp ToolType.BRUSH ⟨40, 150, 250⟩ (1 / 2) 60 80 200 150 1 zeroState).pb 0) ∧
    (0 ≤ (transportStep ⟨3 / 20, 1 / 500, 0, 1 / 20, false, false⟩ zeroState).wm 0 ∧
      0 ≤ (transportStep ⟨3 / 20, 1 / 500, 0, 1 / 20, false, false⟩ zeroState).pr 0 ∧
      0 ≤ (transportStep ⟨3 / 20, 1 / 500, 0, 1 / 20, false, false⟩ zeroState).pg 0 ∧
      0 ≤ (transportStep ⟨3 / 20, 1 / 500, 0, 1 / 20, false, false⟩ zeroState).pb 0) := by
  have h := C5_never_negative ToolType.BRUSH ⟨40, 150, 250⟩ (1 / 2) 60 80 200 150 1
    ⟨3 / 20, 1 / 500, 0, 1 / 20, false, false⟩ zeroState
    (by norm_num) (by norm_num) (by norm_num) (by norm_num) (by norm_num)
    (by norm_num) (by norm_num) (by norm_num) (by norm_num) (by norm_num)
    (fun k => le_refl 0) (fun k => le_refl 0) (fun k => le_refl 0) (fun k => le_refl 0)
  refine ⟨by norm_num, by norm_num, by norm_num, by norm_num, by norm_num,
    by norm_num, by norm_num, h.1 0, h.2 0⟩

/-- Folding neighbor flows preserves the grid totals of water and pigment. -/
lemma neighborFold_sumQ (i : ℕ) (hi : i < NCELLS) (l : List (ℕ × ℚ))
    (hl : ∀ n ∈ l, n.1 < NCELLS) :
    ∀ acc : GridState × ℚ × ℚ,
    sumQ (l.foldl (neighborFlow i) acc).1.wm = sumQ acc.1.wm ∧
    sumQ (l.foldl (neighborFlow i) acc).1.pr = sumQ acc.1.pr ∧
    sumQ (l.foldl (neighborFlow i) acc).1.pg = sumQ acc.1.pg ∧
    sumQ (l.foldl (neighborFlow i) acc).1.pb = sumQ acc.1.pb := by
  induction l with
  | nil => exact fun acc => ⟨rfl, rfl, rfl, rfl⟩
  | cons a l ih =>
      intro acc
      have ha := neighborFlow_sumQ i hi acc a (hl a (List.mem_cons_self a l))
      have ihs := ih (fun n hn => hl n (List.mem_cons_of_mem a hn)) (neighborFlow i acc a)
      rw [List.foldl_cons]
      exact ⟨ihs.1.trans ha.1, ihs.2.1.trans ha.2.1, ihs.2.2.1.trans ha.2.2.1,
        ihs.2.2.2.trans ha.2.2.2⟩

/-- One transport cell update removes exactly `cellLoss` from the grid's
water total and leaves each pigment total unchanged. -/
lemma updateCell_sumQ (p : SimParams) {x y : ℕ} (hx : x < SIM_W) (hy : y < SIM_H)
    (s : GridState) :
    sumQ (updateCell p x y s).wm = sumQ s.wm - cellLoss p x y s ∧
    sumQ (updateCell p x y s).pr = sumQ s.pr ∧
    sumQ (updateCell p x y s).pg = sumQ s.pg ∧
    sumQ (updateCell p x y s).pb = sumQ s.pb := by
  have hi : y * SIM_W + x < NCELLS := flat_lt hx hy
  simp only [updateCell, cellLoss]
  split_ifs with h1 h2
  · refine ⟨by ring, rfl, rfl, rfl⟩
  · refine ⟨?_, rfl, rfl, rfl⟩
    rw [sumQ_upd s.wm hi]
    ring
  · have hfold := neighborFold_sumQ (y * SIM_W + x) hi
      [(idx ((x : ℤ) + 1) (y : ℤ), -p.gravityX),
       (idx ((x : ℤ) - 1) (y : ℤ), p.gravityX),
       (idx (x : ℤ) ((y : ℤ) + 1), p.gravityY),
       (idx (x : ℤ) ((y : ℤ) - 1), -p.gravityY)]
      (by
        intro n hn
        simp only [List.mem_cons, List.not_mem_nil, or_false] at hn
        rcases hn with rfl | rfl | rfl | rfl <;> exact idx_lt _ _)
      ({ s with wm := upd s.wm (y * SIM_W + x) (max 0 (s.wm (y * SIM_W + x) - p.evaporationRate)) }, max 0 (s.wm (y * SIM_W + x) - p.evaporationRate) * p.diffusionSpeed, max 0 (s.wm (y * SIM_W + x) - p.evaporationRate))
    refine ⟨hfold.1.trans ?_, hfold.2.1, hfold.2.2.1, hfold.2.2.2⟩
    show sumQ (upd s.wm (y * SIM_W + x) (max 0 (s.wm (y * SIM_W + x) - p.evaporationRate)))
      = sumQ s.wm - (s.wm (y * SIM_W + x) - max 0 (s.wm (y * SIM_W + x) - p.evaporationRate))
    rw [sumQ_upd s.wm hi]
    ring

/-- The transport sweep's pair fold (state with accumulated evaporation
loss) tracks the plain state fold in its first component. -/
lemma sweepFold_fst (p : SimParams) (l : List ℕ) :
    ∀ (s : GridState) (c : ℚ),
    (l.foldl (fun acc i => (updateCell p (i % SIM_W) (i / SIM_W) acc.1,
        acc.2 + cellLoss p (i % SIM_W) (i / SIM_W) acc.1)) (s, c)).1
      = l.foldl (fun s i => updateCell p (i % SIM_W) (i / SIM_W) s) s := by
  induction l with
  | nil => exact fun s c => rfl
  | cons a l ih => exact fun s c => ih (updateCell p (a % SIM_W) (a / SIM_W) s) _

/-- Over any list of in-grid flat indices, the water total after the fold
plus the accumulated evaporation loss is conserved, and the pigment totals
are unchanged. -/
lemma sweepFold_sum (p : SimParams) (l : List ℕ) (hl : ∀ i ∈ l, i < NCELLS) :
    ∀ (s : GridState) (c : ℚ),
    (sumQ ((l.foldl (fun s i => updateCell p (i % SIM_W) (i / SIM_W) s) s).wm)
      + (l.foldl (fun acc i => (updateCell p (i % SIM_W) (i / SIM_W) acc.1,
          acc.2 + cellLoss p (i % SIM_W) (i / SIM_W) acc.1)) (s, c)).2
      = sumQ s.wm + c) ∧
    (sumQ ((l.foldl (fun s i => updateCell p (i % SIM_W) (i / SIM_W) s) s).pr) = sumQ s.pr) ∧
    (sumQ ((l.foldl (fun s i => updateCell p (i % SIM_W) (i / SIM_W) s) s).pg) = sumQ s.pg) ∧
    (sumQ ((l.foldl (fun s i => updateCell p (i % SIM_W) (i / SIM_W) s) s).pb) = sumQ s.pb) := by
  induction l with
  | nil => exact fun s c => ⟨by simp, rfl, rfl, rfl⟩
  | cons a l ih =>
      intro s c
      have ha : a < NCELLS := hl a (List.mem_cons_self a l)
      have hx : a % SIM_W < SIM_W := Nat.mod_lt _ (by norm_num [SIM_W])
      have hy : a / SIM_W < SIM_H := by
        have hN : NCELLS = SIM_W * SIM_H := rfl
        simp only [SIM_W, SIM_H, NCELLS] at ha ⊢
        omega
      have hcell := updateCell_sumQ p hx hy s
      have ihs := ih (fun i hi => hl i (List.mem_cons_of_mem a hi))
        (updateCell p (a % SIM_W) (a / SIM_W) s)
        (c + cellLoss p (a % SIM_W) (a / SIM_W) s)
      simp only [List.foldl_cons]
      refine ⟨?_, ?_, ?_, ?_⟩
      · rw [ihs.1, hcell.1]
        ring
      · rw [ihs.2.1, hcell.2.1]
      · rw [ihs.2.2.1, hcell.2.2.1]
      · rw [ihs.2.2.2, hcell.2.2.2]

/-- Per-cell evaporation loss lies between 0 and the evaporation rate. -/
lemma cellLoss_bounds (p : SimParams) (he0 : 0 ≤ p.evaporationRate)
    (x y : ℕ) (s : GridState) :
    0 ≤ cellLoss p x y s ∧ cellLoss p x y s ≤ p.evaporationRate := by
  simp only [cellLoss]
  split_ifs with h1
  · exact ⟨le_refl 0, he0⟩
  · have hwet : (1 : ℚ) / 100 < s.wm (y * SIM_W + x) := not_le.mp h1
    constructor
    · have hmax : max 0 (s.wm (y * SIM_W + x) - p.evaporationRate) ≤ s.wm (y * SIM_W + x) :=
        max_le (by linarith) (by linarith)
      linarith
    · have hmax : s.wm (y * SIM_W + x) - p.evaporationRate ≤
          max 0 (s.wm (y * SIM_W + x) - p.evaporationRate) := le_max_right _ _
      linarith

/-- The accumulated loss of the sweep's pair fold grows by at most the
evaporation rate per visited cell and never decreases. -/
lemma sweepFold_loss_bounds (p : SimParams) (he0 : 0 ≤ p.evaporationRate)
    (l : List ℕ) :
    ∀ (s : GridState) (c : ℚ),
    c ≤ (l.foldl (fun acc i => (updateCell p (i % SIM_W) (i / SIM_W) acc.1,
        acc.2 + cellLoss p (i % SIM_W) (i / SIM_W) acc.1)) (s, c)).2 ∧
    (l.foldl (fun acc i => (updateCell p (i % SIM_W) (i / SIM_W) acc.1,
        acc.2 + cellLoss p (i % SIM_W) (i / SIM_W) acc.1)) (s, c)).2
      ≤ c + p.evaporationRate * l.length := by
  induction l with
  | nil => exact fun s c => ⟨le_refl c, by simp⟩
  | cons a l ih =>
      intro s c
      have hcl := cellLoss_bounds p he0 (a % SIM_W) (a / SIM_W) s
      have ihs := ih (updateCell p (a % SIM_W) (a / SIM_W) s)
        (c + cellLoss p (a % SIM_W) (a / SIM_W) s)
      simp only [List.foldl_cons]
      constructor
      · exact le_trans (by linarith [hcl.1]) ihs.1
      · refine le_trans ihs.2 ?_
        rw [List.length_cons]
        push_cast
        linarith [hcl.2]

/-- A cell holding at most `0.01` water is skipped by the sweep. -/
lemma updateCell_dry (p : SimParams) (x y : ℕ) (s : GridState)
    (h : s.wm (y * SIM_W + x) ≤ 1 / 100) : updateCell p x y s = s := by
  simp only [updateCell]
  rw [if_pos h]

/-- Definitional form of the sweep's accumulated evaporation loss. -/
lemma sweepLoss_def (p : SimParams) (s : GridState) :
    sweepLoss p s
      = ((List.range NCELLS).foldl (fun acc i => (updateCell p (i % SIM_W) (i / SIM_W) acc.1,
          acc.2 + cellLoss p (i % SIM_W) (i / SIM_W) acc.1)) (s, 0)).2 := rfl

/-- **C3** (corrected).  One transport step removes from the water total
exactly `sweepLoss`: the sweep-order sum, over cells holding more than 0.01
water when visited, of `min(evaporationRate, water-at-visit)`; this loss
lies between 0 and `evaporationRate · (SIM_W·SIM_H)`.  It is not in general
`evaporationRate · count(cells with water_before > 0.01)`: a cell's loss is
floored at its own water, and cells wetted mid-sweep evaporate too. -/
theorem C3_water_balance (p : SimParams) (s : GridState)
    (he0 : 0 ≤ p.evaporationRate) :
    sumQ (transportStep p s).wm = sumQ s.wm - sweepLoss p s ∧
    0 ≤ sweepLoss p s ∧
    sweepLoss p s ≤ p.evaporationRate * (NCELLS : ℚ) := by
  have hl : ∀ i ∈ List.range NCELLS, i < NCELLS := fun i hi => List.mem_range.mp hi
  have hsum := (sweepFold_sum p (List.range NCELLS) hl s 0).1
  have hb := sweepFold_loss_bounds p he0 (List.range NCELLS) s 0
  refine ⟨?_, ?_, ?_⟩
  · rw [transportStep_def, sweepLoss_def]
    linarith [hsum]
  · rw [sweepLoss_def]
    exact hb.1
  · rw [sweepLoss_def]
    have h2 := hb.2
    rw [List.length_range] at h2
    linarith [h2]

/-- **C3** witness: the balance at the default evaporation rate on the
all-zero grid. -/
theorem C3_water_balance_witness :
    (0 : ℚ) ≤ 1 / 500 ∧
    (sumQ (transportStep ⟨3 / 20, 1 / 500, 0, 1 / 20, false, false⟩ zeroState).wm
        = sumQ zeroState.wm - sweepLoss ⟨3 / 20, 1 / 500, 0, 1 / 20, false, false⟩ zeroState ∧
      0 ≤ sweepLoss ⟨3 / 20, 1 / 500, 0, 1 / 20, false, false⟩ zeroState ∧
      sweepLoss ⟨3 / 20, 1 / 500, 0, 1 / 20, false, false⟩ zeroState ≤ 1 / 500 * (NCELLS : ℚ)) :=
  ⟨by norm_num,
    C3_water_balance ⟨3 / 20, 1 / 500, 0, 1 / 20, false, false⟩ zeroState (by norm_num)⟩

/-- **C3** counterexample: a single cell holding `0.02 > 0.01` water, with
`evaporationRate = 0.05` and `diffusionSpeed = 0` (both in range).  The
claimed balance would give total `0.02 - 0.05·1 = -0.03`, but the step
floors the cell at 0, leaving total 0. -/
theorem C3_water_balance_cex :
    ((Finset.range NCELLS).filter
        (fun i => 1 / 100 < (GridState.mk (upd zeroState.wm 0 (1 / 50)) zeroState.wet zeroState.pr zeroState.pg zeroState.pb).wm i)).card = 1 ∧
    sumQ (GridState.mk (upd zeroState.wm 0 (1 / 50)) zeroState.wet zeroState.pr zeroState.pg zeroState.pb).wm = 1 / 50 ∧
    sumQ (transportStep ⟨0, 1 / 20, 0, 0, false, false⟩
        (GridState.mk (upd zeroState.wm 0 (1 / 50)) zeroState.wet zeroState.pr zeroState.pg zeroState.pb)).wm = 0 ∧
    (0 : ℚ) ≠ 1 / 50 - 1 / 20 * 1 := by
  have hwm0 : upd zeroState.wm 0 (1 / 50) 0 = 1 / 50 := upd_same _ _ _
  have hwmk : ∀ k, k ≠ 0 → upd zeroState.wm 0 (1 / 50) k = 0 := by
    intro k hk
    rw [upd_ne _ _ _ hk]
    rfl
  have hz : sumQ zeroState.wm = 0 := by
    unfold sumQ
    exact Finset.sum_const_zero
  have h0N : (0 : ℕ) < NCELLS := by norm_num [NCELLS, SIM_W, SIM_H]
  refine ⟨?_, ?_, ?_, by norm_num⟩
  · have hfe : (Finset.range NCELLS).filter
        (fun i => 1 / 100 < (GridState.mk (upd zeroState.wm 0 (1 / 50)) zeroState.wet zeroState.pr zeroState.pg zeroState.pb).wm i)
        = {0} := by
      apply Finset.ext
      intro i
      simp only [Finset.mem_filter, Finset.mem_range, Finset.mem_singleton]
      constructor
      · rintro ⟨hlt, hgt⟩
        by_contra hne
        rw [hwmk i hne] at hgt
        norm_num at hgt
      · rintro rfl
        refine ⟨h0N, ?_⟩
        rw [hwm0]
        norm_num
    rw [hfe]
    rfl
  · show sumQ (upd zeroState.wm 0 (1 / 50)) = 1 / 50
    rw [sumQ_upd _ h0N, hz]
    show (0 : ℚ) + 1 / 50 - zeroState.wm 0 = 1 / 50
    show (0 : ℚ) + 1 / 50 - 0 = 1 / 50
    norm_num
  · have hcell : updateCell ⟨0, 1 / 20, 0, 0, false, false⟩ (0 % SIM_W) (0 / SIM_W)
        (GridState.mk (upd zeroState.wm 0 (1 / 50)) zeroState.wet zeroState.pr zeroState.pg zeroState.pb)
        = GridState.mk (upd (upd zeroState.wm 0 (1 / 50)) 0 0) (upd zeroState.wet 0 0) zeroState.pr zeroState.pg zeroState.pb := by
      have hx0 : (0 : ℕ) % SIM_W = 0 := rfl
      have hy0 : (0 : ℕ) / SIM_W = 0 := rfl
      rw [hx0, hy0]
      simp only [updateCell]
      have hidx0 : (0 : ℕ) * SIM_W + 0 = 0 := rfl
      rw [hidx0]
      rw [if_neg (by rw [hwm0]; norm_num)]
      have hval : max 0 (upd zeroState.wm 0 (1 / 50) 0 - (⟨0, 1 / 20, 0, 0, false, false⟩ : SimParams).evaporationRate) = 0 := by
        rw [hwm0]
        show max 0 (1 / 50 - 1 / 20 : ℚ) = 0
        norm_num
      rw [hval]
      rw [if_pos (le_refl (0 : ℚ))]
    have hsplit : List.range NCELLS = 0 :: List.map Nat.succ (List.range 119999) := by
      rw [show NCELLS = 119999 + 1 by norm_num [NCELLS, SIM_W, SIM_H]]
      exact List.range_succ_eq_map 119999
    rw [transportStep_def, hsplit, List.foldl_cons, hcell]
    rw [foldl_fix _ _ _ ?hfix]
    case hfix =>
      intro a ha
      rcases List.mem_map.mp ha with ⟨b, _, rfl⟩
      apply updateCell_dry
      have hne : (Nat.succ b / SIM_W) * SIM_W + Nat.succ b % SIM_W ≠ 0 := by
        simp only [SIM_W]
        omega
      show upd (upd zeroState.wm 0 (1 / 50)) 0 0 _ ≤ 1 / 100
      rw [upd_ne _ _ _ hne, upd_ne _ _ _ hne]
      show (0 : ℚ) ≤ 1 / 100
      norm_num
    show sumQ (upd (upd zeroState.wm 0 (1 / 50)) 0 0) = 0
    rw [sumQ_upd _ h0N, sumQ_upd _ h0N, hz, upd_same]
    show (0 : ℚ) + 1 / 50 - zeroState.wm 0 + 0 - 1 / 50 = 0
    show (0 : ℚ) + 1 / 50 - 0 + 0 - 1 / 50 = 0
    norm_num

/-- **C4** (confirmed).  For every grid state and every parameter setting,
one transport step leaves the total mass of each pigment channel exactly
unchanged in exact arithmetic: every fired transfer subtracts from the
source exactly what it adds to the receiver (also for boundary
self-transfers), and evaporation touches only water. -/
theorem C4_pigment_conservation (p : SimParams) (s : GridState) :
    sumQ (transportStep p s).pr = sumQ s.pr ∧
    sumQ (transportStep p s).pg = sumQ s.pg ∧
    sumQ (transportStep p s).pb = sumQ s.pb := by
  have hl : ∀ i ∈ List.range NCELLS, i < NCELLS := fun i hi => List.mem_range.mp hi
  have h := sweepFold_sum p (List.range NCELLS) hl s 0
  rw [transportStep_def]
  exact ⟨h.2.1, h.2.2.1, h.2.2.2⟩

/-- **C9** (confirmed).  At boundary cells the out-of-range neighbor
coordinate clamps back to the cell's own flat index; a fired transfer to
that clamped neighbor moves water and pigment from the cell to itself,
leaving its stored water and pigment values unchanged (only wetness is
set), while `availableFlow` and the local water tracker are still
decremented by the computed flow; and the sweep never moves mass off the
grid: the water total changes only by the evaporation loss and the pigment
totals not at all. -/
theorem C9_boundary_self_transfer (x y i : ℕ) (hx : x < SIM_W) (hy : y < SIM_H)
    (s : GridState) (atf tw b : ℚ) (p : SimParams)
    (hatf : 0 < atf)
    (hg : 0 < (tw - s.wm i) + b * 5)
    (hf : 1 / 1000 < min atf (((tw - s.wm i) + b * 5) * (1 / 10))) :
    ((x = SIM_W - 1 → idx ((x : ℤ) + 1) (y : ℤ) = y * SIM_W + x) ∧
     (x = 0 → idx ((x : ℤ) - 1) (y : ℤ) = y * SIM_W + x) ∧
     (y = SIM_H - 1 → idx (x : ℤ) ((y : ℤ) + 1) = y * SIM_W + x) ∧
     (y = 0 → idx (x : ℤ) ((y : ℤ) - 1) = y * SIM_W + x)) ∧
    ((∀ k, (neighborFlow i (s, atf, tw) (i, b)).1.wm k = s.wm k) ∧
     (∀ k, (neighborFlow i (s, atf, tw) (i, b)).1.pr k = s.pr k) ∧
     (∀ k, (neighborFlow i (s, atf, tw) (i, b)).1.pg k = s.pg k) ∧
     (∀ k, (neighborFlow i (s, atf, tw) (i, b)).1.pb k = s.pb k) ∧
     (neighborFlow i (s, atf, tw) (i, b)).2.1
        = atf - min atf (((tw - s.wm i) + b * 5) * (1 / 10)) ∧
     (neighborFlow i (s, atf, tw) (i, b)).2.2
        = tw - min atf (((tw - s.wm i) + b * 5) * (1 / 10))) ∧
    (sumQ (transportStep p s).wm + sweepLoss p s = sumQ s.wm ∧
     sumQ (transportStep p s).pr = sumQ s.pr ∧
     sumQ (transportStep p s).pg = sumQ s.pg ∧
     sumQ (transportStep p s).pb = sumQ s.pb) := by
  refine ⟨⟨?_, ?_, ?_, ?_⟩, ?_, ?_⟩
  · intro hxe
    subst hxe
    simp only [idx, SIM_W, SIM_H] at *
    split_ifs <;> omega
  · intro hxe
    subst hxe
    simp only [idx, SIM_W, SIM_H] at *
    split_ifs <;> omega
  · intro hye
    subst hye
    simp only [idx, SIM_W, SIM_H] at *
    split_ifs <;> omega
  · intro hye
    subst hye
    simp only [idx, SIM_W, SIM_H] at *
    split_ifs <;> omega
  · -- the fired self-transfer
    simp only [neighborFlow]
    rw [if_neg (not_le.mpr hatf), if_pos hg, if_pos hf]
    refine ⟨?_, ?_, ?_, ?_, rfl, rfl⟩ <;>
    · intro k
      by_cases hk : k = i
      · subst hk
        simp only [upd_same]
        ring
      · simp only [upd_ne _ _ _ hk]
  · have hl : ∀ j ∈ List.range NCELLS, j < NCELLS := fun j hj => List.mem_range.mp hj
    have h := sweepFold_sum p (List.range NCELLS) hl s 0
    rw [transportStep_def, sweepLoss_def]
    refine ⟨by linarith [h.1], h.2.1, h.2.2.1, h.2.2.2⟩

/-- **C9** witness: the bottom-right corner cell `(399,299)` and a fired
self-transfer with tracker water 5, budget 1 and bias 0.2 on the all-zero
grid. -/
theorem C9_boundary_self_transfer_witness :
    (399 : ℕ) < SIM_W ∧ (299 : ℕ) < SIM_H ∧ (0 : ℚ) < 1 ∧
    0 < ((5 : ℚ) - zeroState.wm 0) + (1 / 5) * 5 ∧
    (1 : ℚ) / 1000 < min 1 ((((5 : ℚ) - zeroState.wm 0) + (1 / 5) * 5) * (1 / 10)) ∧
    (idx ((399 : ℕ) + 1 : ℤ) ((299 : ℕ) : ℤ) = 299 * SIM_W + 399) ∧
    (∀ k, (neighborFlow 0 (zeroState, 1, 5) (0, 1 / 5)).1.wm k = zeroState.wm k) ∧
    (neighborFlow 0 (zeroState, 1, 5) (0, 1 / 5)).2.1
      = 1 - min 1 ((((5 : ℚ) - zeroState.wm 0) + (1 / 5) * 5) * (1 / 10)) := by
  have hz : zeroState.wm 0 = 0 := rfl
  have h1 : (399 : ℕ) < SIM_W := by norm_num [SIM_W]
  have h2 : (299 : ℕ) < SIM_H := by norm_num [SIM_H]
  have h3 : (0 : ℚ) < 1 := by norm_num
  have h4 : 0 < ((5 : ℚ) - zeroState.wm 0) + (1 / 5) * 5 := by rw [hz]; norm_num
  have h5 : (1 : ℚ) / 1000 < min 1 ((((5 : ℚ) - zeroState.wm 0) + (1 / 5) * 5) * (1 / 10)) := by
    rw [hz]
    norm_num
  have h := C9_boundary_self_transfer 399 299 0 h1 h2 zeroState 1 5 (1 / 5)
    ⟨3 / 20, 1 / 500, 0, 1 / 20, false, false⟩ h3 h4 h5
  exact ⟨h1, h2, h3, h4, h5, h.1.1 rfl, h.2.1.1, h.2.1.2.2.2.2.1⟩

/-- A transfer of a nonnegative amount keeps values within `[0,10]` when the
amount does not exceed the source value and the receiver stays at most 10. -/
lemma upd_transfer_cap (f : ℕ → ℚ) (i j : ℕ) (mv : ℚ) (hmv : 0 ≤ mv)
    (hf : ∀ k, 0 ≤ f k ∧ f k ≤ 10) (hkeep : 0 ≤ f i - mv)
    (hrecv : f j + mv ≤ 10) :
    ∀ k, 0 ≤ upd (upd f i (f i - mv)) j ((upd f i (f i - mv)) j + mv) k ∧
      upd (upd f i (f i - mv)) j ((upd f i (f i - mv)) j + mv) k ≤ 10 := by
  intro k
  by_cases hkj : k = j
  · subst hkj
    rw [upd_same]
    by_cases hki : k = i
    · subst hki
      rw [upd_same]
      have := hf k
      constructor <;> linarith
    · rw [upd_ne _ _ _ hki]
      have := hf k
      constructor <;> linarith
  · rw [upd_ne _ _ _ hkj]
    by_cases hki : k = i
    · subst hki
      rw [upd_same]
      have := hf k
      constructor <;> linarith
    · rw [upd_ne _ _ _ hki]
      exact hf k

/-- With zero gravity bias, one neighbor-flow iteration keeps every cell's
water within `[0,10]` and preserves the tracker invariants. -/
lemma neighborFlow_cap (i j : ℕ) (s : GridState) (atf tw : ℚ)
    (hw : ∀ k, 0 ≤ s.wm k ∧ s.wm k ≤ 10)
    (hat : atf ≤ tw) (htw : tw ≤ s.wm i) :
    (∀ k, 0 ≤ (neighborFlow i (s, atf, tw) (j, 0)).1.wm k ∧
      (neighborFlow i (s, atf, tw) (j, 0)).1.wm k ≤ 10) ∧
    (neighborFlow i (s, atf, tw) (j, 0)).2.1 ≤ (neighborFlow i (s, atf, tw) (j, 0)).2.2 ∧
    (neighborFlow i (s, atf, tw) (j, 0)).2.2 ≤
      (neighborFlow i (s, atf, tw) (j, 0)).1.wm i := by
  simp only [neighborFlow]
  split_ifs with h1 h2 h3
  · exact ⟨hw, hat, htw⟩
  · have hfl_pos : 0 < min atf ((tw - s.wm j + 0 * 5) * (1 / 10)) := by
      have h : (0 : ℚ) < 1 / 1000 := by norm_num
      linarith [h3]
    have hfl_atf : min atf ((tw - s.wm j + 0 * 5) * (1 / 10)) ≤ atf := min_le_left _ _
    have hfl_tw : min atf ((tw - s.wm j + 0 * 5) * (1 / 10)) ≤ tw := hfl_atf.trans hat
    have hfl_g : min atf ((tw - s.wm j + 0 * 5) * (1 / 10)) ≤ (tw - s.wm j + 0 * 5) * (1 / 10) :=
      min_le_right _ _
    refine ⟨?_, ?_, ?_⟩
    · refine upd_transfer_cap s.wm i j _ hfl_pos.le hw (by linarith [(hw i).1]) ?_
      have h10i : s.wm i ≤ 10 := (hw i).2
      have h0j : 0 ≤ s.wm j := (hw j).1
      have h10j : s.wm j ≤ 10 := (hw j).2
      linarith
    · exact sub_le_sub_right hat _
    · exact le_trans (sub_le_sub_right htw _)
        (upd_transfer_at_src s.wm i j _ hfl_pos.le)
  · exact ⟨hw, hat, htw⟩
  · exact ⟨hw, hat, htw⟩

/-- With zero gravity, one transport cell update keeps every cell's water
within `[0,10]`. -/
lemma updateCell_cap (p : SimParams) (hgx : p.gravityX = 0) (hgy : p.gravityY = 0)
    (he0 : 0 ≤ p.evaporationRate) (hd1 : p.diffusionSpeed ≤ 1)
    (x y : ℕ) (s : GridState)
    (hw : ∀ k, 0 ≤ s.wm k ∧ s.wm k ≤ 10) :
    ∀ k, 0 ≤ (updateCell p x y s).wm k ∧ (updateCell p x y s).wm k ≤ 10 := by
  have hw1 : ∀ k, 0 ≤ upd s.wm (y * SIM_W + x)
      (max 0 (s.wm (y * SIM_W + x) - p.evaporationRate)) k ∧
      upd s.wm (y * SIM_W + x)
        (max 0 (s.wm (y * SIM_W + x) - p.evaporationRate)) k ≤ 10 := by
    intro k
    by_cases hk : k = y * SIM_W + x
    · subst hk
      rw [upd_same]
      refine ⟨le_max_left _ _, max_le (by norm_num) (by linarith [(hw (y * SIM_W + x)).2])⟩
    · rw [upd_ne _ _ _ hk]
      exact hw k
  simp only [updateCell, hgx, hgy, neg_zero]
  split_ifs with h1 h2
  · exact hw
  · exact hw1
  · have hw1pos : 0 < max 0 (s.wm (y * SIM_W + x) - p.evaporationRate) := not_le.mp h2
    have hP := foldl_preserves (neighborFlow (y * SIM_W + x))
      (fun acc =>
        (∀ k, 0 ≤ acc.1.wm k ∧ acc.1.wm k ≤ 10) ∧
        acc.2.1 ≤ acc.2.2 ∧ acc.2.2 ≤ acc.1.wm (y * SIM_W + x))
      [(idx ((x : ℤ) + 1) (y : ℤ), 0),
       (idx ((x : ℤ) - 1) (y : ℤ), 0),
       (idx (x : ℤ) ((y : ℤ) + 1), 0),
       (idx (x : ℤ) ((y : ℤ) - 1), 0)]
      ({ s with wm := upd s.wm (y * SIM_W + x) (max 0 (s.wm (y * SIM_W + x) - p.evaporationRate)) }, max 0 (s.wm (y * SIM_W + x) - p.evaporationRate) * p.diffusionSpeed, max 0 (s.wm (y * SIM_W + x) - p.evaporationRate))
      (by
        refine ⟨hw1, ?_, ?_⟩
        · exact mul_le_of_le_one_right hw1pos.le hd1
        · show max 0 (s.wm (y * SIM_W + x) - p.evaporationRate)
            ≤ upd s.wm (y * SIM_W + x) (max 0 (s.wm (y * SIM_W + x) - p.evaporationRate)) (y * SIM_W + x)
          rw [upd_same])
      (fun t a _ ht => by
        obtain ⟨s2, atf, tw⟩ := t
        obtain ⟨j, b⟩ := a
        have hb0 : b = 0 := by
          have hmem :
              (j, b) ∈ ([(idx ((x : ℤ) + 1) (y : ℤ), (0 : ℚ)),
                (idx ((x : ℤ) - 1) (y : ℤ), 0),
                (idx (x : ℤ) ((y : ℤ) + 1), 0),
                (idx (x : ℤ) ((y : ℤ) - 1), 0)] : List (ℕ × ℚ)) := by assumption
          simp only [List.mem_cons, List.not_mem_nil, or_false, Prod.mk.injEq] at hmem
          rcases hmem with ⟨_, h⟩ | ⟨_, h⟩ | ⟨_, h⟩ | ⟨_, h⟩ <;> exact h
        subst hb0
        exact neighborFlow_cap (y * SIM_W + x) j s2 atf tw ht.1 ht.2.1 ht.2.2)
    exact hP.1

/-- With zero gravity, a full transport sweep keeps every cell's water
within `[0,10]`. -/
lemma transportStep_cap (p : SimParams) (hgx : p.gravityX = 0) (hgy : p.gravityY = 0)
    (he0 : 0 ≤ p.evaporationRate) (hd1 : p.diffusionSpeed ≤ 1)
    (s : GridState) (hw : ∀ k, 0 ≤ s.wm k ∧ s.wm k ≤ 10) :
    ∀ k, 0 ≤ (transportStep p s).wm k ∧ (transportStep p s).wm k ≤ 10 := by
  rw [transportStep_def]
  have hmain : ∀ (l : List ℕ) (t : GridState),
      (∀ k, 0 ≤ t.wm k ∧ t.wm k ≤ 10) →
      ∀ k, 0 ≤ (l.foldl (fun s i => updateCell p (i % SIM_W) (i / SIM_W) s) t).wm k ∧
        (l.foldl (fun s i => updateCell p (i % SIM_W) (i / SIM_W) s) t).wm k ≤ 10 := by
    intro l
    induction l with
    | nil => exact fun t ht => ht
    | cons a l ih =>
        intro t ht
        exact ih (updateCell p (a % SIM_W) (a / SIM_W) t)
          (updateCell_cap p hgx hgy he0 hd1 (a % SIM_W) (a / SIM_W) t ht)
  exact hmain (List.range NCELLS) s hw

/-- With in-range parameters, one stamping-loop iteration keeps every
cell's water within `[0,10]`. -/
lemma stampCell_wm_cap (tool : ToolType) (col : RGB) (pressure wl pl : ℚ)
    (simX simY : ℤ) (rSq : ℚ) (s : GridState) (c : ℕ × ℕ)
    (hp0 : 0 ≤ pressure) (hp1 : pressure ≤ 1) (hwl0 : 0 ≤ wl) (hrSq : 0 ≤ rSq)
    (hw : ∀ k, 0 ≤ s.wm k ∧ s.wm k ≤ 10) :
    ∀ k, 0 ≤ (stampCell tool col pressure wl pl simX simY rSq s c).wm k ∧
      (stampCell tool col pressure wl pl simX simY rSq s c).wm k ≤ 10 := by
  rcases c with ⟨cx, cy⟩
  by_cases hif : (((cx : ℚ) - ((simX : ℤ) : ℚ)) ^ 2 + ((cy : ℚ) - ((simY : ℤ) : ℚ)) ^ 2 ≤ rSq)
  case neg =>
    cases tool <;>
      simp only [stampCell] <;>
      rw [if_neg hif] <;>
      exact hw
  case pos =>
  have hds : (0 : ℚ) ≤ ((cx : ℚ) - ((simX : ℤ) : ℚ)) ^ 2 + ((cy : ℚ) - ((simY : ℤ) : ℚ)) ^ 2 :=
    add_nonneg (sq_nonneg _) (sq_nonneg _)
  have hdiv1 : (((cx : ℚ) - ((simX : ℤ) : ℚ)) ^ 2 + ((cy : ℚ) - ((simY : ℤ) : ℚ)) ^ 2) / rSq ≤ 1 := by
    rcases eq_or_lt_of_le hrSq with h | h
    · have h0 : rSq = 0 := h.symm
      rw [h0, div_zero]
      norm_num
    · exact (div_le_one h).mpr hif
  have hdiv0 : 0 ≤ (((cx : ℚ) - ((simX : ℤ) : ℚ)) ^ 2 + ((cy : ℚ) - ((simY : ℤ) : ℚ)) ^ 2) / rSq :=
    div_nonneg hds hrSq
  have hfall0 : 0 ≤ 1 - (((cx : ℚ) - ((simX : ℤ) : ℚ)) ^ 2 + ((cy : ℚ) - ((simY : ℤ) : ℚ)) ^ 2) / rSq := by
    linarith
  have hfall1 : 1 - (((cx : ℚ) - ((simX : ℤ) : ℚ)) ^ 2 + ((cy : ℚ) - ((simY : ℤ) : ℚ)) ^ 2) / rSq ≤ 1 := by
    linarith
  have hamt0 : 0 ≤ (1 - (((cx : ℚ) - ((simX : ℤ) : ℚ)) ^ 2 + ((cy : ℚ) - ((simY : ℤ) : ℚ)) ^ 2) / rSq) * pressure :=
    mul_nonneg hfall0 hp0
  have hamt1 : (1 - (((cx : ℚ) - ((simX : ℤ) : ℚ)) ^ 2 + ((cy : ℚ) - ((simY : ℤ) : ℚ)) ^ 2) / rSq) * pressure ≤ 1 :=
    mul_le_one₀ hfall1 hp0 hp1
  have hcap : ∀ (v : ℚ), 0 ≤ v → v ≤ 10 → ∀ k,
      0 ≤ upd s.wm (cy * SIM_W + cx) v k ∧ upd s.wm (cy * SIM_W + cx) v k ≤ 10 := by
    intro v hv0 hv1 k
    by_cases hk : k = cy * SIM_W + cx
    · subst hk
      rw [upd_same]
      exact ⟨hv0, hv1⟩
    · rw [upd_ne _ _ _ hk]
      exact hw k
  cases tool
  case BRUSH =>
    simp only [stampCell]
    rw [if_pos hif]
    refine hcap _ ?_ ?_
    · exact le_min (by norm_num)
        (add_nonneg (hw _).1 (mul_nonneg hamt0 (by linarith : (0 : ℚ) ≤ wl / 20)))
    · exact min_le_left _ _
  case WATER =>
    simp only [stampCell]
    rw [if_pos hif]
    refine hcap _ ?_ ?_
    · exact le_min (by norm_num)
        (add_nonneg (hw _).1 (mul_nonneg hamt0 (by linarith : (0 : ℚ) ≤ wl / 10)))
    · exact min_le_left _ _
  case DRY =>
    simp only [stampCell]
    rw [if_pos hif]
    refine hcap _ (le_max_left _ _) ?_
    refine max_le (by norm_num) ?_
    have h1 := (hw (cy * SIM_W + cx)).2
    nlinarith
  case ERASER =>
    simp only [stampCell]
    rw [if_pos hif]
    have he1 : (1 - (((cx : ℚ) - ((simX : ℤ) : ℚ)) ^ 2 + ((cy : ℚ) - ((simY : ℤ) : ℚ)) ^ 2) / rSq) * pressure * (1 / 2) ≤ 1 :=
      mul_le_one₀ hamt1 (by norm_num) (by norm_num)
    have he0 : 0 ≤ (1 - (((cx : ℚ) - ((simX : ℤ) : ℚ)) ^ 2 + ((cy : ℚ) - ((simY : ℤ) : ℚ)) ^ 2) / rSq) * pressure * (1 / 2) :=
      mul_nonneg hamt0 (by norm_num)
    refine hcap _ ?_ ?_
    · exact mul_nonneg (hw _).1 (by linarith)
    · have h1 := (hw (cy * SIM_W + cx)).1
      have h2 := (hw (cy * SIM_W + cx)).2
      nlinarith
  case BLOW =>
    simp only [stampCell]
    rw [if_pos hif]
    exact hw

/-- With in-range parameters, a whole stamp keeps every cell's water within
`[0,10]`. -/
lemma stamp_wm_cap (tool : ToolType) (col : RGB) (pressure wl pl : ℚ)
    (simX simY : ℤ) (radius : ℚ) (s : GridState)
    (hp0 : 0 ≤ pressure) (hp1 : pressure ≤ 1) (hwl0 : 0 ≤ wl)
    (hw : ∀ k, 0 ≤ s.wm k ∧ s.wm k ≤ 10) :
    ∀ k, 0 ≤ (stamp tool col pressure wl pl simX simY radius s).wm k ∧
      (stamp tool col pressure wl pl simX simY radius s).wm k ≤ 10 := by
  have hmain : ∀ (l : List (ℕ × ℕ)) (t : GridState),
      (∀ k, 0 ≤ t.wm k ∧ t.wm k ≤ 10) →
      ∀ k, 0 ≤ (l.foldl (stampCell tool col pressure wl pl simX simY (radius * radius)) t).wm k ∧
        (l.foldl (stampCell tool col pressure wl pl simX simY (radius * radius)) t).wm k ≤ 10 := by
    intro l
    induction l with
    | nil => exact fun t ht => ht
    | cons a l ih =>
        intro t ht
        exact ih (stampCell tool col pressure wl pl simX simY (radius * radius) t a)
          (stampCell_wm_cap tool col pressure wl pl simX simY (radius * radius) t a
            hp0 hp1 hwl0 (mul_self_nonneg radius) ht)
  unfold stamp
  exact hmain (stampCells simX simY radius) s hw

/-- Equation form of `applyOp` on a transport operation. -/
lemma applyOp_stepOp (p : SimParams) (s : GridState) :
    applyOp s (Op.stepOp p) = transportStep p s := by
  simp only [applyOp]

/-- Equation form of `applyOp` on a stamp operation. -/
lemma applyOp_stampOp (tool : ToolType) (c : RGB) (pressure wl pl : ℚ)
    (simX simY : ℤ) (radius : ℚ) (s : GridState) :
    applyOp s (Op.stampOp tool c pressure wl pl simX simY radius)
      = stamp tool c pressure wl pl simX simY radius s := by
  simp only [applyOp]

/-- Unfolding one operation of a run. -/
lemma runOps_cons (o : Op) (l : List Op) (s : GridState) :
    runOps (o :: l) s = runOps l (applyOp s o) := rfl

/-- Running a sequence of in-range operations from a nonnegative grid keeps
water and pigment nonnegative. -/
lemma runOps_nonneg (l : List Op) :
    ∀ s : GridState, (∀ o ∈ l, opInRange o) →
    (∀ k, 0 ≤ s.wm k) → (∀ k, 0 ≤ s.pr k) → (∀ k, 0 ≤ s.pg k) → (∀ k, 0 ≤ s.pb k) →
    (∀ k, 0 ≤ (runOps l s).wm k) ∧ (∀ k, 0 ≤ (runOps l s).pr k) ∧
    (∀ k, 0 ≤ (runOps l s).pg k) ∧ (∀ k, 0 ≤ (runOps l s).pb k) := by
  induction l with
  | nil => exact fun s _ h1 h2 h3 h4 => ⟨h1, h2, h3, h4⟩
  | cons o l ih =>
      intro s hr h1 h2 h3 h4
      have hro := hr o (List.mem_cons_self o l)
      have htail : ∀ o2 ∈ l, opInRange o2 := fun o2 ho2 => hr o2 (List.mem_cons_of_mem o ho2)
      rw [runOps_cons]
      cases o with
      | stampOp tool c pressure waterLoad pigmentLoad simX simY radius =>
          obtain ⟨hp0, hp1, hwl0, hwl1, hpl0, hpl1, hcr0, hcr1, hcg0, hcg1, hcb0, hcb1⟩ := hro
          rw [applyOp_stampOp]
          have hstep := stamp_nonneg tool c pressure waterLoad pigmentLoad simX simY radius s
            hp0 hp1 hwl0 hpl0 hpl1 hcr0 hcg0 hcb0 h1 h2 h3 h4
          exact ih (stamp tool c pressure waterLoad pigmentLoad simX simY radius s) htail
            hstep.1 hstep.2.1 hstep.2.2.1 hstep.2.2.2
      | stepOp p =>
          obtain ⟨hd0, hd1, he0, he1, hg1, hg2, hg3, hg4⟩ := hro
          rw [applyOp_stepOp]
          have hstep := transportStep_nonneg p hd0 (by linarith) s h1 h2 h3 h4
          exact ih (transportStep p s) htail hstep.1 hstep.2.1 hstep.2.2.1 hstep.2.2.2

/-- Running a sequence of in-range, zero-gravity operations from a grid
with water in `[0,10]` keeps water in `[0,10]`. -/
lemma runOps_cap (l : List Op) :
    ∀ s : GridState, (∀ o ∈ l, opInRange o ∧ opZeroGrav o) →
    (∀ k, 0 ≤ s.wm k ∧ s.wm k ≤ 10) →
    ∀ k, 0 ≤ (runOps l s).wm k ∧ (runOps l s).wm k ≤ 10 := by
  induction l with
  | nil => exact fun s _ h => h
  | cons o l ih =>
      intro s hr h
      have hro := hr o (List.mem_cons_self o l)
      have htail : ∀ o2 ∈ l, opInRange o2 ∧ opZeroGrav o2 :=
        fun o2 ho2 => hr o2 (List.mem_cons_of_mem o ho2)
      rw [runOps_cons]
      cases o with
      | stampOp tool c pressure waterLoad pigmentLoad simX simY radius =>
          obtain ⟨⟨hp0, hp1, hwl0, hwl1, hpl0, hpl1, hcr0, hcr1, hcg0, hcg1, hcb0, hcb1⟩, hz⟩ := hro
          rw [applyOp_stampOp]
          exact ih (stamp tool c pressure waterLoad pigmentLoad simX simY radius s) htail
            (stamp_wm_cap tool c pressure waterLoad pigmentLoad simX simY radius s
              hp0 hp1 hwl0 h)
      | stepOp p =>
          obtain ⟨⟨hd0, hd1, he0, he1, hg1, hg2, hg3, hg4⟩, hzx, hzy⟩ := hro
          rw [applyOp_stepOp]
          exact ih (transportStep p s) htail
            (transportStep_cap p hzx hzy he0 (by linarith) s h)

/-- **C2** (corrected).  Starting from the all-zero grid, every finite
sequence of in-range stamping and transport operations keeps every cell's
water nonnegative; and when every transport operation in the sequence has
zero gravity the water also never exceeds 10.  (With nonzero gravity, a
transport step can push a cell above 10 — see the counterexample.) -/
theorem C2_water_range (l : List Op) (hrange : ∀ o ∈ l, opInRange o) :
    (∀ k, 0 ≤ (runOps l zeroState).wm k) ∧
    ((∀ o ∈ l, opZeroGrav o) →
      ∀ k, 0 ≤ (runOps l zeroState).wm k ∧ (runOps l zeroState).wm k ≤ 10) := by
  constructor
  · exact (runOps_nonneg l zeroState hrange (fun k => le_refl 0) (fun k => le_refl 0)
      (fun k => le_refl 0) (fun k => le_refl 0)).1
  · intro hzg
    exact runOps_cap l zeroState (fun o ho => ⟨hrange o ho, hzg o ho⟩)
      (fun k => ⟨le_refl 0, by show (0 : ℚ) ≤ 10; norm_num⟩)

/-- **C2** witness: one zero-gravity transport step with in-range default
parameters, applied to the all-zero grid, checked at cell 0. -/
theorem C2_water_range_witness :
    (∀ o ∈ [Op.stepOp ⟨3 / 20, 1 / 500, 0, 0, false, false⟩], opInRange o) ∧
    (0 ≤ (runOps [Op.stepOp ⟨3 / 20, 1 / 500, 0, 0, false, false⟩] zeroState).wm 0) ∧
    ((∀ o ∈ [Op.stepOp ⟨3 / 20, 1 / 500, 0, 0, false, false⟩], opZeroGrav o) →
      0 ≤ (runOps [Op.stepOp ⟨3 / 20, 1 / 500, 0, 0, false, false⟩] zeroState).wm 0 ∧
      (runOps [Op.stepOp ⟨3 / 20, 1 / 500, 0, 0, false, false⟩] zeroState).wm 0 ≤ 10) := by
  have hrange : ∀ o ∈ [Op.stepOp (⟨3 / 20, 1 / 500, 0, 0, false, false⟩ : SimParams)], opInRange o := by
    intro o ho
    rcases List.mem_singleton.mp ho with rfl
    show (0 : ℚ) ≤ 3 / 20 ∧ (3 : ℚ) / 20 ≤ 1 / 2 ∧ (0 : ℚ) ≤ 1 / 500 ∧ (1 : ℚ) / 500 ≤ 1 / 20 ∧
      -(1 / 5 : ℚ) ≤ 0 ∧ (0 : ℚ) ≤ 1 / 5 ∧ -(1 / 5 : ℚ) ≤ 0 ∧ (0 : ℚ) ≤ 1 / 5
    norm_num
  have h := C2_water_range [Op.stepOp ⟨3 / 20, 1 / 500, 0, 0, false, false⟩] hrange
  exact ⟨hrange, h.1 0, fun hzg => (h.2 hzg) 0⟩

lemma runOps_nil (s : GridState) : runOps [] s = s := rfl

/-- The water field after the four corner `WATER` stamps of the C2
counterexample: exactly the four cells `(398,298),(399,298),(398,299),
(399,299)` hold water `10`. -/
lemma cexStamped4 :
    ∀ k, (stamp ToolType.WATER ⟨0,0,0⟩ 1 100 0 399 299 1
      (stamp ToolType.WATER ⟨0,0,0⟩ 1 100 0 398 299 1
        (stamp ToolType.WATER ⟨0,0,0⟩ 1 100 0 399 298 1
          (stamp ToolType.WATER ⟨0,0,0⟩ 1 100 0 398 298 1 zeroState)))).wm k
      = (if k = 119598 ∨ k = 119599 ∨ k = 119998 ∨ k = 119999 then (10:ℚ) else 0) := by
  have hc1 : stampCells 398 298 1 = [(397,297),(398,297),(397,298),(398,298)] := by
    norm_num [stampCells]
    decide
  have hc2 : stampCells 399 298 1 = [(398,297),(399,297),(398,298),(399,298)] := by
    norm_num [stampCells]
    decide
  have hc3 : stampCells 398 299 1 = [(397,298),(398,298),(397,299),(398,299)] := by
    norm_num [stampCells]
    decide
  have hc4 : stampCells 399 299 1 = [(398,298),(399,298),(398,299),(399,299)] := by
    norm_num [stampCells]
    decide
  intro k
  rw [stamp, hc4, stamp, hc3, stamp, hc2, stamp, hc1]
  simp only [List.foldl_cons, List.foldl_nil, stampCell]
  norm_num [upd, zeroState, SIM_W]
  split_ifs <;> first | rfl | omega | norm_num

/-- Sweep-order split of the cell list isolating the four wet cells for the
C2 counterexample. -/
lemma cexSweepSplit : List.range NCELLS
    = List.range' 0 119598
        ++ (119598 :: 119599 :: (List.range' 119600 398 ++ (119998 :: 119999 :: []))) := by
  rw [List.range_eq_range']
  rw [show NCELLS = 120000 from by norm_num [NCELLS, SIM_W, SIM_H]]
  have h1 := List.range'_append 0 119598 402 1
  norm_num at h1
  have h3 := List.range'_append 119600 398 2 1
  norm_num at h3
  have h2 : List.range' 119598 402
      = 119598 :: 119599 :: (List.range' 119600 398 ++ (119998 :: 119999 :: [])) := by
    rw [show (402:ℕ) = 401+1 from rfl, List.range'_succ]
    rw [show (119598:ℕ)+1 = 119599 from rfl, show (401:ℕ) = 400+1 from rfl, List.range'_succ]
    rw [show (119599:ℕ)+1 = 119600 from rfl, ← h3]
    rfl
  rw [← h1, h2]

/-- Cells before the first wet cell are dry at visit time. -/
lemma cexDryLow (T : GridState)
    (hW : ∀ k, T.wm k = (if k = 119598 ∨ k = 119599 ∨ k = 119998 ∨ k = 119999 then (10:ℚ) else 0)) :
    (List.range' 0 119598).foldl
      (fun s i => updateCell ⟨1/100, 0, 0, 1/5, false, false⟩ (i % SIM_W) (i / SIM_W) s) T = T := by
  apply foldl_fix
  intro a ha
  rw [List.mem_range'_1] at ha
  apply updateCell_dry
  have hself : a / SIM_W * SIM_W + a % SIM_W = a := by
    simp only [SIM_W]
    omega
  rw [hself, hW a]
  clear hself
  split_ifs with hcond
  all_goals first | (exact absurd hcond (by omega)) | norm_num

/-- One sweep visit of cell `(398,298)` on the stamped state. -/
lemma cexCell1 (T : GridState)
    (hW : ∀ k, T.wm k = (if k = 119598 ∨ k = 119599 ∨ k = 119998 ∨ k = 119999 then (10:ℚ) else 0)) :
    ∀ k, (updateCell ⟨1/100, 0, 0, 1/5, false, false⟩ 398 298 T).wm k
      = (if k = 119597 then (1/10 : ℚ) else if k = 119598 then 99/10
         else if k = 119599 ∨ k = 119998 ∨ k = 119999 then 10 else 0) := by
  intro k
  have ht1 : Int.toNat 119599 = 119599 := rfl
  have ht2 : Int.toNat 119597 = 119597 := rfl
  have ht3 : Int.toNat 119998 = 119998 := rfl
  have ht4 : Int.toNat 119198 = 119198 := rfl
  simp only [updateCell]
  norm_num [SIM_W, SIM_H, idx, min_def, max_def, ht1, ht2, ht3, ht4, hW]
  norm_num [neighborFlow, upd, min_def, max_def, hW]
  split_ifs <;> first | rfl | omega | norm_num

/-- One sweep visit of cell `(399,298)`. -/
lemma cexCell2 (T : GridState)
    (hW : ∀ k, T.wm k = (if k = 119597 then (1/10 : ℚ) else if k = 119598 then 99/10
         else if k = 119599 ∨ k = 119998 ∨ k = 119999 then 10 else 0)) :
    ∀ k, (updateCell ⟨1/100, 0, 0, 1/5, false, false⟩ 399 298 T).wm k
      = (if k = 119597 then (1/10 : ℚ) else if k = 119598 then 991/100
         else if k = 119599 then 99/10 else if k = 119999 then 1009/100
         else if k = 119998 then 10 else 0) := by
  intro k
  have ht1 : Int.toNat 119599 = 119599 := rfl
  have ht2 : Int.toNat 119598 = 119598 := rfl
  have ht3 : Int.toNat 119999 = 119999 := rfl
  have ht4 : Int.toNat 119199 = 119199 := rfl
  simp only [updateCell]
  norm_num [SIM_W, SIM_H, idx, min_def, max_def, ht1, ht2, ht3, ht4, hW]
  norm_num [neighborFlow, upd, min_def, max_def, hW]
  split_ifs <;> first | rfl | omega | norm_num

/-- Cells between the two wet rows are dry at visit time. -/
lemma cexDryMid (T : GridState)
    (hW : ∀ k, T.wm k = (if k = 119597 then (1/10 : ℚ) else if k = 119598 then 991/100
         else if k = 119599 then 99/10 else if k = 119999 then 1009/100
         else if k = 119998 then 10 else 0)) :
    (List.range' 119600 398).foldl
      (fun s i => updateCell ⟨1/100, 0, 0, 1/5, false, false⟩ (i % SIM_W) (i / SIM_W) s) T = T := by
  apply foldl_fix
  intro a ha
  rw [List.mem_range'_1] at ha
  apply updateCell_dry
  have hself : a / SIM_W * SIM_W + a % SIM_W = a := by
    simp only [SIM_W]
    omega
  rw [hself, hW a]
  clear hself
  split_ifs with hcond
  all_goals first | (exact absurd hcond (by omega)) | norm_num

/-- One sweep visit of cell `(398,299)`. -/
lemma cexCell3 (T : GridState)
    (hW : ∀ k, T.wm k = (if k = 119597 then (1/10 : ℚ) else if k = 119598 then 991/100
         else if k = 119599 then 99/10 else if k = 119999 then 1009/100
         else if k = 119998 then 10 else 0)) :
    ∀ k, (updateCell ⟨1/100, 0, 0, 1/5, false, false⟩ 398 299 T).wm k
      = (if k = 119597 then (1/10 : ℚ) else if k = 119598 then 991/100
         else if k = 119599 then 99/10 else if k = 119997 then 1/10
         else if k = 119998 then 99/10 else if k = 119999 then 1009/100 else 0) := by
  intro k
  have ht1 : Int.toNat 119999 = 119999 := rfl
  have ht2 : Int.toNat 119997 = 119997 := rfl
  have ht3 : Int.toNat 119998 = 119998 := rfl
  have ht4 : Int.toNat 119598 = 119598 := rfl
  simp only [updateCell]
  norm_num [SIM_W, SIM_H, idx, min_def, max_def, ht1, ht2, ht3, ht4, hW]
  norm_num [neighborFlow, upd, min_def, max_def, hW]
  split_ifs <;> first | rfl | omega | norm_num

/-- The final sweep visit of cell `(399,299)` leaves it with water
`10.071 > 10`: the gravity-biased self-transfer at the bottom edge keeps the
stored value, and the left-neighbor inflow received earlier in the sweep had
already pushed it above the stamp cap. -/
lemma cexCell4 (T : GridState)
    (hW : ∀ k, T.wm k = (if k = 119597 then (1/10 : ℚ) else if k = 119598 then 991/100
         else if k = 119599 then 99/10 else if k = 119997 then 1/10
         else if k = 119998 then 99/10 else if k = 119999 then 1009/100 else 0)) :
    (updateCell ⟨1/100, 0, 0, 1/5, false, false⟩ 399 299 T).wm 119999 = 10071/1000 := by
  have ht1 : Int.toNat 119999 = 119999 := rfl
  have ht2 : Int.toNat 119998 = 119998 := rfl
  have ht3 : Int.toNat 119599 = 119599 := rfl
  simp only [updateCell]
  norm_num [SIM_W, SIM_H, idx, min_def, max_def, ht1, ht2, ht3, hW]
  norm_num [neighborFlow, upd, min_def, max_def, hW]


/-- **C2** counterexample: from the all-zero grid, four in-range `WATER`
stamps at the bottom-right corner followed by one in-range transport step
with downward gravity `0.2` drive cell `(399,299)` to water `10.071 > 10`. -/
theorem C2_water_range_cex :
    (∀ o ∈ ([Op.stampOp ToolType.WATER ⟨0,0,0⟩ 1 100 0 398 298 1,
             Op.stampOp ToolType.WATER ⟨0,0,0⟩ 1 100 0 399 298 1,
             Op.stampOp ToolType.WATER ⟨0,0,0⟩ 1 100 0 398 299 1,
             Op.stampOp ToolType.WATER ⟨0,0,0⟩ 1 100 0 399 299 1,
             Op.stepOp ⟨1/100, 0, 0, 1/5, false, false⟩] : List Op), opInRange o) ∧
    (runOps [Op.stampOp ToolType.WATER ⟨0,0,0⟩ 1 100 0 398 298 1,
             Op.stampOp ToolType.WATER ⟨0,0,0⟩ 1 100 0 399 298 1,
             Op.stampOp ToolType.WATER ⟨0,0,0⟩ 1 100 0 398 299 1,
             Op.stampOp ToolType.WATER ⟨0,0,0⟩ 1 100 0 399 299 1,
             Op.stepOp ⟨1/100, 0, 0, 1/5, false, false⟩] zeroState).wm 119999 = 10071/1000 ∧
    ¬ ((runOps [Op.stampOp ToolType.WATER ⟨0,0,0⟩ 1 100 0 398 298 1,
             Op.stampOp ToolType.WATER ⟨0,0,0⟩ 1 100 0 399 298 1,
             Op.stampOp ToolType.WATER ⟨0,0,0⟩ 1 100 0 398 299 1,
             Op.stampOp ToolType.WATER ⟨0,0,0⟩ 1 100 0 399 299 1,
             Op.stepOp ⟨1/100, 0, 0, 1/5, false, false⟩] zeroState).wm 119999 ≤ 10) := by
  have hrun : runOps [Op.stampOp ToolType.WATER ⟨0,0,0⟩ 1 100 0 398 298 1,
             Op.stampOp ToolType.WATER ⟨0,0,0⟩ 1 100 0 399 298 1,
             Op.stampOp ToolType.WATER ⟨0,0,0⟩ 1 100 0 398 299 1,
             Op.stampOp ToolType.WATER ⟨0,0,0⟩ 1 100 0 399 299 1,
             Op.stepOp ⟨1/100, 0, 0, 1/5, false, false⟩] zeroState
      = transportStep ⟨1/100, 0, 0, 1/5, false, false⟩
          (stamp ToolType.WATER ⟨0,0,0⟩ 1 100 0 399 299 1
            (stamp ToolType.WATER ⟨0,0,0⟩ 1 100 0 398 299 1
              (stamp ToolType.WATER ⟨0,0,0⟩ 1 100 0 399 298 1
                (stamp ToolType.WATER ⟨0,0,0⟩ 1 100 0 398 298 1 zeroState)))) := by
    rw [runOps_cons, applyOp_stampOp, runOps_cons, applyOp_stampOp,
        runOps_cons, applyOp_stampOp, runOps_cons, applyOp_stampOp,
        runOps_cons, applyOp_stepOp, runOps_nil]
  have hm1 : 119598 % SIM_W = 398 := by norm_num [SIM_W]
  have hd1 : 119598 / SIM_W = 298 := by norm_num [SIM_W]
  have hm2 : 119599 % SIM_W = 399 := by norm_num [SIM_W]
  have hd2 : 119599 / SIM_W = 298 := by norm_num [SIM_W]
  have hm3 : 119998 % SIM_W = 398 := by norm_num [SIM_W]
  have hd3 : 119998 / SIM_W = 299 := by norm_num [SIM_W]
  have hm4 : 119999 % SIM_W = 399 := by norm_num [SIM_W]
  have hd4 : 119999 / SIM_W = 299 := by norm_num [SIM_W]
  have hval : (runOps [Op.stampOp ToolType.WATER ⟨0,0,0⟩ 1 100 0 398 298 1,
             Op.stampOp ToolType.WATER ⟨0,0,0⟩ 1 100 0 399 298 1,
             Op.stampOp ToolType.WATER ⟨0,0,0⟩ 1 100 0 398 299 1,
             Op.stampOp ToolType.WATER ⟨0,0,0⟩ 1 100 0 399 299 1,
             Op.stepOp ⟨1/100, 0, 0, 1/5, false, false⟩] zeroState).wm 119999 = 10071/1000 := by
    rw [hrun, transportStep_def, cexSweepSplit, List.foldl_append]
    rw [cexDryLow _ cexStamped4]
    rw [List.foldl_cons, List.foldl_cons]
    rw [hm1, hd1, hm2, hd2]
    have hW1 := cexCell1 _ cexStamped4
    have hW2 := cexCell2 _ hW1
    rw [List.foldl_append, cexDryMid _ hW2]
    rw [List.foldl_cons, List.foldl_cons, List.foldl_nil]
    rw [hm3, hd3, hm4, hd4]
    exact cexCell4 _ (cexCell3 _ hW2)
  refine ⟨?_, hval, by rw [hval]; norm_num⟩
  intro o ho
  simp only [List.mem_cons, List.not_mem_nil, or_false] at ho
  rcases ho with rfl | rfl | rfl | rfl | rfl <;> norm_num [opInRange]

end AquaFlow
